import Mathlib

/-!
# MPC.cpp: the optimisation problem handed to the NLP solver

Shallow embedding of `src/MPC.cpp`.

* `double` / `AD<double>` scalars are idealised as an arbitrary linearly ordered
  field `α` (exact arithmetic); `CppAD::cos`, `CppAD::sin`, `CppAD::atan` are the
  three fields of a `Trig α` record, so every statement holds for any choice of
  these functions, in particular for the real ones.
* `size_t` indices are `Nat`; with `N = 10` none of the index expressions wraps.
* A vector that the code only reads (`vars` in `FG_eval`, `state`, `coeffs`,
  `solution.x`) is a `List α`; a read outside the vector is the fault
  `out_of_range`.
* A vector that the code fills (`fg`, and the `Dvector`s of `MPC::Solve`) is a
  `Dvector α`: every cell is `none` until it is assigned, and a ghost log keeps
  the indices assigned, in program order.
* The external solver `CppAD::ipopt::solve` is a parameter of `Solve`.
-/

namespace MPC

/-! ## Scalars and vectors -/

/-- The transcendental functions of the scalar type (`CppAD::cos`, `CppAD::sin`,
`CppAD::atan`). -/
structure Trig (α : Type) where
  cos : α → α
  sin : α → α
  atan : α → α

/-- A vector being filled by the code: `cells[i] = none` while index `i` has not
been assigned, `log` lists the assigned indices in program order. -/
structure Dvector (α : Type) where
  cells : List (Option α)
  log : List Nat

/-- What goes wrong when an index expression leaves its vector, or a cell is
used before it was assigned. -/
inductive Fault where
  | out_of_range
  | unassigned
  deriving DecidableEq, Repr

/-- The rvalue `v[i]` of a read-only vector. -/
def rd {α : Type} (v : List α) (i : Nat) : Except Fault α :=
  match v[i]? with
  | some x => .ok x
  | none => .error .out_of_range

/-- `Dvector v(n)`: a vector of `n` cells, none of them assigned yet. -/
def Dvector.alloc {α : Type} (n : Nat) : Dvector α :=
  ⟨List.replicate n none, []⟩

/-- `v.size()`. -/
def Dvector.size {α : Type} (v : Dvector α) : Nat :=
  v.cells.length

/-- The value `v[i]` as an rvalue: fails outside the vector and on a cell that
was never assigned. -/
def Dvector.read {α : Type} (v : Dvector α) (i : Nat) : Except Fault α :=
  match v.cells[i]? with
  | some (some x) => .ok x
  | some none => .error .unassigned
  | none => .error .out_of_range

/-- The vector after `v[i] = x`, without the bounds check. -/
def Dvector.put {α : Type} (v : Dvector α) (i : Nat) (x : α) : Dvector α :=
  ⟨v.cells.set i (some x), v.log ++ [i]⟩

/-- The assignment `v[i] = x`: fails outside the vector. -/
def Dvector.write {α : Type} (v : Dvector α) (i : Nat) (x : α) :
    Except Fault (Dvector α) :=
  if i < v.size then .ok (v.put i x) else .error .out_of_range

/-- The compound assignment `v[i] += x`. -/
def Dvector.addTo {α : Type} [Add α] (v : Dvector α) (i : Nat) (x : α) :
    Except Fault (Dvector α) := do
  let old ← v.read i
  v.write i (old + x)

/-- The vector as the solver hands it to `fg_eval`: its values in order; fails
when a cell was never assigned. -/
def Dvector.values {α : Type} (v : Dvector α) : Except Fault (List α) :=
  (List.range v.size).mapM v.read

/-- The loop `for (size_t i = lo; i < lo + n; ++i) body`, on a state `σ`. -/
def forLoop {σ : Type} (body : Nat → σ → Except Fault σ) :
    Nat → Nat → σ → Except Fault σ
  | _, 0, s => .ok s
  | lo, n + 1, s => body lo s >>= forLoop body (lo + 1) n

/-- The loop `for (size_t i = lo; i < hi; ++i) body`. -/
def forRange {σ : Type} (lo hi : Nat) (body : Nat → σ → Except Fault σ) (s : σ) :
    Except Fault σ :=
  forLoop body lo (hi - lo) s

section Code

variable {α : Type} [LinearOrderedField α]

/-! ## Constants of `MPC.cpp` -/

def N : Nat := 10
def dt : α := 0.1

def cte_gain : α := 2500
def epsi_gain : α := 500
def v_gain : α := 1
def delta_gain : α := 500
def a_gain : α := 1
def delta_a_gain : α := 100
def delta_s_gain : α := 10
def a_s_gain : α := 10

def ref_v : α := 70
def x_start : Nat := 0
def y_start : Nat := x_start + N
def psi_start : Nat := y_start + N
def v_start : Nat := psi_start + N
def cte_start : Nat := v_start + N
def epsi_start : Nat := cte_start + N
def delta_start : Nat := epsi_start + N
def a_start : Nat := delta_start + N - 1

def Lf : α := 2.67

/-- The local constant `n_vars` of `MPC::Solve`. -/
def n_vars : Nat := 6 * N + 2 * (N - 1)

/-- The local constant `n_constraints` of `MPC::Solve`. -/
def n_constraints : Nat := 6 * N

/-! ## `FG_eval::operator()` -/

/-- Body of the first cost loop (reference state), lines 64-68. -/
def refCostBody (vars : List α) (t : Nat) (fg : Dvector α) : Except Fault (Dvector α) := do
  let cte ← rd vars (cte_start + t)
  let fg ← fg.addTo 0 (cte_gain * cte ^ 2)
  let epsi ← rd vars (epsi_start + t)
  let fg ← fg.addTo 0 (epsi_gain * epsi ^ 2)
  let v ← rd vars (v_start + t)
  fg.addTo 0 (v_gain * (v - ref_v) ^ 2)

/-- Body of the second cost loop (use of actuators), lines 71-77. -/
def actCostBody (vars : List α) (t : Nat) (fg : Dvector α) : Except Fault (Dvector α) := do
  let delta ← rd vars (delta_start + t)
  let fg ← fg.addTo 0 (delta_gain * delta ^ 2)
  let a ← rd vars (a_start + t)
  let fg ← fg.addTo 0 (a_gain * a ^ 2)
  let delta ← rd vars (delta_start + t)
  let v ← rd vars (v_start + t)
  fg.addTo 0 (delta_a_gain * (delta * v) ^ 2)

/-- Body of the third cost loop (gap between sequential actuations), lines 80-83. -/
def gapCostBody (vars : List α) (t : Nat) (fg : Dvector α) : Except Fault (Dvector α) := do
  let delta1 ← rd vars (delta_start + t + 1)
  let delta0 ← rd vars (delta_start + t)
  let fg ← fg.addTo 0 (delta_s_gain * (delta1 - delta0) ^ 2)
  let a1 ← rd vars (a_start + t + 1)
  let a0 ← rd vars (a_start + t)
  fg.addTo 0 (a_s_gain * (a1 - a0) ^ 2)

/-- The cost part of `FG_eval::operator()`, lines 61-83. -/
def FG_eval_cost (vars : List α) (fg : Dvector α) : Except Fault (Dvector α) := do
  let fg ← fg.write 0 0
  let fg ← forRange 0 N (refCostBody vars) fg
  let fg ← forRange 0 (N - 1) (actCostBody vars) fg
  forRange 0 (N - 2) (gapCostBody vars) fg

/-- The six assignments of lines 88-93. -/
def initConstraints (vars : List α) (fg : Dvector α) : Except Fault (Dvector α) := do
  let fg ← fg.write (1 + x_start) (← rd vars x_start)
  let fg ← fg.write (1 + y_start) (← rd vars y_start)
  let fg ← fg.write (1 + psi_start) (← rd vars psi_start)
  let fg ← fg.write (1 + v_start) (← rd vars v_start)
  let fg ← fg.write (1 + cte_start) (← rd vars cte_start)
  fg.write (1 + epsi_start) (← rd vars epsi_start)

/-- Line 122: `f0`, the fitted polynomial at `x0`. -/
def line_f0 (c0 c1 c2 x0 : α) : α :=
  c0 + c1 * x0 + c2 * x0 ^ 2

/-- Line 123: `psides0`, the desired heading at `x0`. -/
def line_psides0 (tr : Trig α) (c1 c2 x0 : α) : α :=
  tr.atan (c1 + 2 * c2 * x0)

/-- Line 125: the value assigned to `fg[1 + x_start + t]`. -/
def line_x (tr : Trig α) (x1 x0 v0 psi0 : α) : α :=
  x1 - (x0 + v0 * tr.cos psi0 * dt)

/-- Line 126: the value assigned to `fg[1 + y_start + t]`. -/
def line_y (tr : Trig α) (y1 y0 v0 psi0 : α) : α :=
  y1 - (y0 + v0 * tr.sin psi0 * dt)

/-- Line 127: the value assigned to `fg[1 + psi_start + t]`. -/
def line_psi (psi1 psi0 v0 delta0 : α) : α :=
  psi1 - (psi0 + v0 * delta0 / Lf * dt)

/-- Line 128: the value assigned to `fg[1 + v_start + t]`. -/
def line_v (v1 v0 a0 : α) : α :=
  v1 - (v0 + a0 * dt)

/-- Line 129: the value assigned to `fg[1 + cte_start + t]`. -/
def line_cte (tr : Trig α) (cte1 f0 y0 v0 epsi0 : α) : α :=
  cte1 - ((f0 - y0) + (v0 * tr.sin epsi0 * dt))

/-- Line 130: the value assigned to `fg[1 + epsi_start + t]`. -/
def line_epsi (epsi1 psi0 psides0 v0 delta0 : α) : α :=
  epsi1 - ((psi0 - psides0) + v0 * delta0 / Lf * dt)

/-- Body of the constraint loop, lines 96-130. -/
def kinematicBody (tr : Trig α) (coeffs vars : List α) (t : Nat) (fg : Dvector α) :
    Except Fault (Dvector α) := do
  -- The state at time t+1 .
  let x1 ← rd vars (x_start + t)
  let y1 ← rd vars (y_start + t)
  let psi1 ← rd vars (psi_start + t)
  let v1 ← rd vars (v_start + t)
  let cte1 ← rd vars (cte_start + t)
  let epsi1 ← rd vars (epsi_start + t)
  -- The state at time t.
  let x0 ← rd vars (x_start + t - 1)
  let y0 ← rd vars (y_start + t - 1)
  let psi0 ← rd vars (psi_start + t - 1)
  let v0 ← rd vars (v_start + t - 1)
  let _cte0 ← rd vars (cte_start + t - 1)
  let epsi0 ← rd vars (epsi_start + t - 1)
  -- Only consider the actuation at time t.
  let delta0 ← rd vars (delta_start + t - 1)
  let a0 ← rd vars (a_start + t - 1)
  -- use prev control command due to delay (100ms)
  let delta0 ← if t > 1 then rd vars (delta_start + t - 1 - 1) else pure delta0
  let a0 ← if t > 1 then rd vars (a_start + t - 1 - 1) else pure a0
  let c0 ← rd coeffs 0
  let c1 ← rd coeffs 1
  let c2 ← rd coeffs 2
  let f0 := line_f0 c0 c1 c2 x0
  let psides0 := line_psides0 tr c1 c2 x0
  -- kinematic model
  let fg ← fg.write (1 + x_start + t) (line_x tr x1 x0 v0 psi0)
  let fg ← fg.write (1 + y_start + t) (line_y tr y1 y0 v0 psi0)
  let fg ← fg.write (1 + psi_start + t) (line_psi psi1 psi0 v0 delta0)
  let fg ← fg.write (1 + v_start + t) (line_v v1 v0 a0)
  let fg ← fg.write (1 + cte_start + t) (line_cte tr cte1 f0 y0 v0 epsi0)
  fg.write (1 + epsi_start + t) (line_epsi epsi1 psi0 psides0 v0 delta0)

/-- The constraint part of `FG_eval::operator()`, lines 88-131. -/
def FG_eval_constraints (tr : Trig α) (coeffs vars : List α) (fg : Dvector α) :
    Except Fault (Dvector α) := do
  let fg ← initConstraints vars fg
  forRange 1 N (kinematicBody tr coeffs vars) fg

/-- `FG_eval::operator()(fg, vars)`: the vector `fg` after the call, or the fault
that stops it. -/
def FG_eval (tr : Trig α) (coeffs : List α) (fg : Dvector α) (vars : List α) :
    Except Fault (Dvector α) := do
  let fg ← FG_eval_cost vars fg
  FG_eval_constraints tr coeffs vars fg

/-! ## `MPC::Solve` -/

/-- Modelled from the spec: the status code of the solver's result
(`CppAD::ipopt::solve_result<Dvector>::status`, declared in the CppAD headers,
not in this repository). Section 6 only says that it tells success from
failure and time-out. -/
inductive Status where
  | success
  | failure
  | time_limit_exceeded
  deriving DecidableEq, Repr

/-- The part of `CppAD::ipopt::solve_result<Dvector>` that `Solve` reads. -/
structure solve_result (α : Type) where
  status : Status
  x : List α

/-- The external solver `CppAD::ipopt::solve`, in the order of its arguments:
`options, xi, xl, xu, gl, gu, fg_eval`; the output argument `solution` is the
value returned. -/
abbrev Solver (α : Type) : Type :=
  String → Dvector α → Dvector α → Dvector α → Dvector α → Dvector α →
    (Dvector α → List α → Except Fault (Dvector α)) → solve_result α

/-- The vectors that `Solve` builds before it calls the solver, lines 151-218. -/
structure Setup (α : Type) where
  vars : Dvector α
  vars_lowerbound : Dvector α
  vars_upperbound : Dvector α
  constraints_lowerbound : Dvector α
  constraints_upperbound : Dvector α

/-- Body of the loops `v[i] = c` (lines 158-160). -/
def fillBody (c : α) (i : Nat) (v : Dvector α) : Except Fault (Dvector α) :=
  v.write i c

/-- Body of the loops `lower[i] = lo; upper[i] = hi` (lines 183-186, 190-193,
198-201, 207-210). -/
def boundBody (lo hi : α) (i : Nat) (b : Dvector α × Dvector α) :
    Except Fault (Dvector α × Dvector α) := do
  let lower ← b.1.write i lo
  let upper ← b.2.write i hi
  pure (lower, upper)

/-- The chained assignment `lower[i] = upper[i] = x` (lines 213-218). -/
def pinBoth (i : Nat) (x : α) (b : Dvector α × Dvector α) :
    Except Fault (Dvector α × Dvector α) := do
  let upper ← b.2.write i x
  let lower ← b.1.write i x
  pure (lower, upper)

/-- Lines 151-218 of `MPC::Solve`: initial guess, variable bounds, constraint
bounds. -/
def Solve_setup (state : List α) : Except Fault (Setup α) := do
  -- Initial value of the independent variables.
  let vars : Dvector α := Dvector.alloc n_vars
  let vars ← forRange 0 n_vars (fillBody 0) vars
  let x ← rd state 0
  let y ← rd state 1
  let psi ← rd state 2
  let v ← rd state 3
  let cte ← rd state 4
  let epsi ← rd state 5
  -- Set the initial variable values
  let vars ← vars.write x_start x
  let vars ← vars.write y_start y
  let vars ← vars.write psi_start psi
  let vars ← vars.write v_start v
  let vars ← vars.write cte_start cte
  let vars ← vars.write epsi_start epsi
  let vars_bounds : Dvector α × Dvector α := (Dvector.alloc n_vars, Dvector.alloc n_vars)
  -- steering
  let radian25 : α := 0.436332
  let vars_bounds ← forRange delta_start a_start (boundBody (-radian25) (radian25)) vars_bounds
  -- throttle
  let full_throttle : α := 1.0
  let vars_bounds ← forRange a_start n_vars (boundBody (-full_throttle) (full_throttle))
    vars_bounds
  -- no constraint
  let big_num : α := 1e10
  let vars_bounds ← forRange 0 delta_start (boundBody (-big_num) (big_num)) vars_bounds
  -- Lower and upper limits for the constraints
  let constraints_bounds : Dvector α × Dvector α :=
    (Dvector.alloc n_constraints, Dvector.alloc n_constraints)
  let constraints_bounds ← forRange 0 n_constraints (boundBody 0 0) constraints_bounds
  -- initial state set as input
  let constraints_bounds ← pinBoth x_start x constraints_bounds
  let constraints_bounds ← pinBoth y_start y constraints_bounds
  let constraints_bounds ← pinBoth psi_start psi constraints_bounds
  let constraints_bounds ← pinBoth v_start v constraints_bounds
  let constraints_bounds ← pinBoth cte_start cte constraints_bounds
  let constraints_bounds ← pinBoth epsi_start epsi constraints_bounds
  pure ⟨vars, vars_bounds.1, vars_bounds.2, constraints_bounds.1, constraints_bounds.2⟩

/-- The option string given to the solver, lines 227-239. -/
def solver_options : String :=
  "" ++ "Integer print_level  0\n" ++ "Sparse  true        forward\n"
    ++ "Sparse  true        reverse\n" ++ "Numeric max_cpu_time          0.5\n"

/-- Body of the loop of lines 266-269. -/
def waypointBody (x : List α) (i : Nat) (result : List α) : Except Fault (List α) := do
  let px ← rd x (x_start + i + 1)
  let result := result ++ [px]
  let py ← rd x (y_start + i + 1)
  pure (result ++ [py])

/-- Lines 261-271 of `MPC::Solve`: the vector returned, from `solution.x`. -/
def Solve_result (x : List α) : Except Fault (List α) := do
  let result : List α := []
  let delta ← rd x delta_start
  let result := result ++ [delta]
  let a ← rd x a_start
  let result := result ++ [a]
  forRange 0 (N - 1) (waypointBody x) result

/-- The call of the solver, lines 245-247, on the vectors built before it. -/
def Solve_call (tr : Trig α) (solve : Solver α) (coeffs : List α) (p : Setup α) :
    solve_result α :=
  -- object that computes objective and constraints
  let fg_eval := FG_eval tr coeffs
  solve solver_options p.vars p.vars_lowerbound p.vars_upperbound p.constraints_lowerbound
    p.constraints_upperbound fg_eval

/-- `MPC::Solve(state, coeffs)`, with the solver it calls as a parameter. The
flag `ok` is computed as in the source (lines 142 and 250); nothing reads it. -/
def Solve (tr : Trig α) (solve : Solver α) (state coeffs : List α) :
    Except Fault (List α) := do
  let ok := true
  let p ← Solve_setup state
  -- solve the problem
  let solution := Solve_call tr solve coeffs p
  -- Check some of the solution values
  let _ok := ok && decide (solution.status = Status.success)
  Solve_result solution.x

/-! ## What the specification says -/

/-- Entry `i` of a decision vector, as the specification names it (`cte_t` is
`entry vars (cte_start + t)`); `0` outside the vector. -/
def entry (vars : List α) (i : Nat) : α :=
  vars.getD i 0

/-- The objective in the words of the specification (section 4.1), with the
weights and the reference speed written as numbers. -/
def cost_spec (vars : List α) : α :=
  (∑ t ∈ Finset.range N,
      (2500 * entry vars (cte_start + t) ^ 2 + 500 * entry vars (epsi_start + t) ^ 2
        + 1 * (entry vars (v_start + t) - 70) ^ 2))
  + (∑ t ∈ Finset.range (N - 1),
      (500 * entry vars (delta_start + t) ^ 2 + 1 * entry vars (a_start + t) ^ 2
        + 100 * (entry vars (delta_start + t) * entry vars (v_start + t)) ^ 2))
  + (∑ t ∈ Finset.range (N - 2),
      (10 * (entry vars (delta_start + (t + 1)) - entry vars (delta_start + t)) ^ 2
        + 10 * (entry vars (a_start + (t + 1)) - entry vars (a_start + t)) ^ 2))

/-- Index of the actuator pair that step `t` of the model uses: two steps back,
and the first pair for step 1. -/
def actuatorStep (t : Nat) : Nat :=
  if 2 ≤ t then t - 2 else 0

/-- The forward-Euler prediction of `x_t` from the state at `t - 1` (section 4.1). -/
def predX (tr : Trig α) (vars : List α) (t : Nat) : α :=
  entry vars (x_start + (t - 1))
    + entry vars (v_start + (t - 1)) * tr.cos (entry vars (psi_start + (t - 1))) * 0.1

/-- The forward-Euler prediction of `y_t` from the state at `t - 1`. -/
def predY (tr : Trig α) (vars : List α) (t : Nat) : α :=
  entry vars (y_start + (t - 1))
    + entry vars (v_start + (t - 1)) * tr.sin (entry vars (psi_start + (t - 1))) * 0.1

/-- The forward-Euler prediction of `psi_t` from the state at `t - 1` and the
steering value `delta`. -/
def predPsi (vars : List α) (t : Nat) (delta : α) : α :=
  entry vars (psi_start + (t - 1)) + entry vars (v_start + (t - 1)) * (delta / 2.67) * 0.1

/-- The forward-Euler prediction of `v_t` from the state at `t - 1` and the
acceleration value `a`. -/
def predV (vars : List α) (t : Nat) (a : α) : α :=
  entry vars (v_start + (t - 1)) + a * 0.1

/-- The prediction of `cte_t` from the state at `t - 1`, for a path value `f`. -/
def predCte (tr : Trig α) (vars : List α) (t : Nat) (f : α) : α :=
  (f - entry vars (y_start + (t - 1)))
    + entry vars (v_start + (t - 1)) * tr.sin (entry vars (epsi_start + (t - 1))) * 0.1

/-- The prediction of `epsi_t` from the state at `t - 1`, for a desired heading
`psides` and the steering value `delta`. -/
def predEpsi (vars : List α) (t : Nat) (psides delta : α) : α :=
  (entry vars (psi_start + (t - 1)) - psides)
    + entry vars (v_start + (t - 1)) * (delta / 2.67) * 0.1

/-- The whole polynomial `sum_i c[i] * x^i`. -/
def polyEval (c : List α) (x : α) : α :=
  ∑ i ∈ Finset.range c.length, entry c i * x ^ i

/-- The derivative of the whole polynomial, `sum_i i * c[i] * x^(i-1)`. -/
def polyDeriv (c : List α) (x : α) : α :=
  ∑ i ∈ Finset.range c.length, (i : α) * entry c i * x ^ (i - 1)

/-- The bound that the specification gives to constraint `i`: the measured value
at the six `t = 0` indices, `0` elsewhere. -/
def pinnedBound (state : List α) (i : Nat) : α :=
  if i = x_start then entry state 0
  else if i = y_start then entry state 1
  else if i = psi_start then entry state 2
  else if i = v_start then entry state 3
  else if i = cte_start then entry state 4
  else if i = epsi_start then entry state 5
  else 0

/-- Constraint `i` of the problem is satisfied by the evaluation `fg`: its value
`fg[1 + i]` lies between the bounds `gl[i]` and `gu[i]` given to the solver. -/
def constraintHolds (gl gu fg : Dvector α) (i : Nat) : Prop :=
  ∃ l u g, gl.read i = .ok l ∧ gu.read i = .ok u ∧ fg.read (1 + i) = .ok g ∧ l ≤ g ∧ g ≤ u

/-- The vector `x` respects the variable bounds `xl`, `xu` given to the solver. -/
def respectsBounds (xl xu : Dvector α) (x : List α) : Prop :=
  ∀ i, i < x.length →
    ∃ l u, xl.read i = .ok l ∧ xu.read i = .ok u ∧ l ≤ entry x i ∧ entry x i ≤ u

/-- The eight blocks of the decision vector, as (offset, length), in the order of
the specification: six state blocks, two actuator blocks. -/
def blocks : List (Nat × Nat) :=
  [(x_start, N), (y_start, N), (psi_start, N), (v_start, N), (cte_start, N), (epsi_start, N),
    (delta_start, N - 1), (a_start, N - 1)]

/-- Entry `i` of the initial guess in the words of the specification: the
current state at the six `t = 0` indices, `0` at every other index. -/
def initialGuess (state : List α) (i : Nat) : α :=
  if i = x_start then entry state 0
  else if i = y_start then entry state 1
  else if i = psi_start then entry state 2
  else if i = v_start then entry state 3
  else if i = cte_start then entry state 4
  else if i = epsi_start then entry state 5
  else 0

/-- The six constraint slots assigned for step `t`, in program order. -/
def stepSlots (t : Nat) : List Nat :=
  [1 + x_start + t, 1 + y_start + t, 1 + psi_start + t, 1 + v_start + t, 1 + cte_start + t,
    1 + epsi_start + t]

/-- The constraint slots assigned for the steps `lo, ..., lo + n - 1`, in program
order. -/
def slotLog : Nat → Nat → List Nat
  | _, 0 => []
  | lo, n + 1 => stepSlots lo ++ slotLog (lo + 1) n

end Code

/-! ## Closed forms used in the proofs

What each part of the code leaves behind when no bounds check fails. The
theorems below prove that the code computes exactly these. -/

section ClosedForms

variable {α : Type}

/-- The vector `fg` once `fg[0]` holds `a` after `k` assignments to it. -/
def Dvector.acc (v : Dvector α) (a : α) (k : Nat) : Dvector α :=
  ⟨v.cells.set 0 (some a), v.log ++ List.replicate k 0⟩

/-- The assignments `v[i] = c` for `i = lo, ..., lo + n - 1`, bounds checks left out. -/
def fill (c : α) : Nat → Nat → Dvector α → Dvector α
  | _, 0, v => v
  | lo, n + 1, v => fill c (lo + 1) n (v.put lo c)

variable [LinearOrderedField α]

/-- Term added to `fg[0]` by one pass of the first cost loop. -/
def refTerm (vars : List α) (t : Nat) : α :=
  cte_gain * entry vars (cte_start + t) ^ 2 + epsi_gain * entry vars (epsi_start + t) ^ 2
    + v_gain * (entry vars (v_start + t) - ref_v) ^ 2

/-- Term added to `fg[0]` by one pass of the second cost loop. -/
def actTerm (vars : List α) (t : Nat) : α :=
  delta_gain * entry vars (delta_start + t) ^ 2 + a_gain * entry vars (a_start + t) ^ 2
    + delta_a_gain * (entry vars (delta_start + t) * entry vars (v_start + t)) ^ 2

/-- Term added to `fg[0]` by one pass of the third cost loop. -/
def gapTerm (vars : List α) (t : Nat) : α :=
  delta_s_gain * (entry vars (delta_start + t + 1) - entry vars (delta_start + t)) ^ 2
    + a_s_gain * (entry vars (a_start + t + 1) - entry vars (a_start + t)) ^ 2

/-- The objective as the code accumulates it. -/
def cost_code (vars : List α) : α :=
  0 + (∑ t ∈ Finset.range N, refTerm vars (0 + t))
    + (∑ t ∈ Finset.range (N - 1), actTerm vars (0 + t))
    + (∑ t ∈ Finset.range (N - 2), gapTerm vars (0 + t))

/-- The steering value `delta0` that pass `t` of the constraint loop ends up
with (lines 113 and 117-118). -/
def usedDelta (vars : List α) (t : Nat) : α :=
  if t > 1 then entry vars (delta_start + t - 1 - 1) else entry vars (delta_start + t - 1)

/-- The acceleration value `a0` that pass `t` of the constraint loop ends up
with (lines 114 and 117-119). -/
def usedA (vars : List α) (t : Nat) : α :=
  if t > 1 then entry vars (a_start + t - 1 - 1) else entry vars (a_start + t - 1)

/-- Value written to `fg[1 + x_start + t]` in pass `t`. -/
def resX (tr : Trig α) (vars : List α) (t : Nat) : α :=
  line_x tr (entry vars (x_start + t)) (entry vars (x_start + t - 1))
    (entry vars (v_start + t - 1)) (entry vars (psi_start + t - 1))

/-- Value written to `fg[1 + y_start + t]` in pass `t`. -/
def resY (tr : Trig α) (vars : List α) (t : Nat) : α :=
  line_y tr (entry vars (y_start + t)) (entry vars (y_start + t - 1))
    (entry vars (v_start + t - 1)) (entry vars (psi_start + t - 1))

/-- Value written to `fg[1 + psi_start + t]` in pass `t`. -/
def resPsi (vars : List α) (t : Nat) : α :=
  line_psi (entry vars (psi_start + t)) (entry vars (psi_start + t - 1))
    (entry vars (v_start + t - 1)) (usedDelta vars t)

/-- Value written to `fg[1 + v_start + t]` in pass `t`. -/
def resV (vars : List α) (t : Nat) : α :=
  line_v (entry vars (v_start + t)) (entry vars (v_start + t - 1)) (usedA vars t)

/-- Value written to `fg[1 + cte_start + t]` in pass `t`. -/
def resCte (tr : Trig α) (coeffs vars : List α) (t : Nat) : α :=
  line_cte tr (entry vars (cte_start + t))
    (line_f0 (entry coeffs 0) (entry coeffs 1) (entry coeffs 2) (entry vars (x_start + t - 1)))
    (entry vars (y_start + t - 1)) (entry vars (v_start + t - 1))
    (entry vars (epsi_start + t - 1))

/-- Value written to `fg[1 + epsi_start + t]` in pass `t`. -/
def resEpsi (tr : Trig α) (coeffs vars : List α) (t : Nat) : α :=
  line_epsi (entry vars (epsi_start + t)) (entry vars (psi_start + t - 1))
    (line_psides0 tr (entry coeffs 1) (entry coeffs 2) (entry vars (x_start + t - 1)))
    (entry vars (v_start + t - 1)) (usedDelta vars t)

/-- The six assignments of pass `t` of the constraint loop, bounds checks left out. -/
def kinPuts (tr : Trig α) (coeffs vars : List α) (t : Nat) (fg : Dvector α) : Dvector α :=
  (((((fg.put (1 + x_start + t) (resX tr vars t)).put (1 + y_start + t) (resY tr vars t)).put
    (1 + psi_start + t) (resPsi vars t)).put (1 + v_start + t) (resV vars t)).put
    (1 + cte_start + t) (resCte tr coeffs vars t)).put
    (1 + epsi_start + t) (resEpsi tr coeffs vars t)

/-- The six assignments of lines 88-93, bounds checks left out. -/
def initPuts (vars : List α) (fg : Dvector α) : Dvector α :=
  (((((fg.put (1 + x_start) (entry vars x_start)).put (1 + y_start) (entry vars y_start)).put
    (1 + psi_start) (entry vars psi_start)).put (1 + v_start) (entry vars v_start)).put
    (1 + cte_start) (entry vars cte_start)).put (1 + epsi_start) (entry vars epsi_start)

/-- The passes `lo, lo + 1, ..., lo + n - 1` of the constraint loop, bounds checks
left out. -/
def kinAll (tr : Trig α) (coeffs vars : List α) : Nat → Nat → Dvector α → Dvector α
  | _, 0, fg => fg
  | lo, n + 1, fg => kinAll tr coeffs vars (lo + 1) n (kinPuts tr coeffs vars lo fg)

/-- The vector `fg` after `FG_eval::operator()`, bounds checks left out. -/
def fgFinal (tr : Trig α) (coeffs : List α) (fg : Dvector α) (vars : List α) : Dvector α :=
  kinAll tr coeffs vars 1 (N - 1) (initPuts vars (fg.acc (cost_code vars) 74))

/-- The vectors built by lines 151-218 of `MPC::Solve`, bounds checks left out. -/
def setupFinal (state : List α) : Setup α where
  vars :=
    ((((((fill 0 0 n_vars (Dvector.alloc n_vars)).put x_start (entry state 0)).put
      y_start (entry state 1)).put psi_start (entry state 2)).put v_start (entry state 3)).put
      cte_start (entry state 4)).put epsi_start (entry state 5)
  vars_lowerbound :=
    fill (-1e10) 0 delta_start (fill (-1.0) a_start (n_vars - a_start)
      (fill (-0.436332) delta_start (a_start - delta_start) (Dvector.alloc n_vars)))
  vars_upperbound :=
    fill 1e10 0 delta_start (fill 1.0 a_start (n_vars - a_start)
      (fill 0.436332 delta_start (a_start - delta_start) (Dvector.alloc n_vars)))
  constraints_lowerbound :=
    ((((((fill 0 0 n_constraints (Dvector.alloc n_constraints)).put x_start (entry state 0)).put
      y_start (entry state 1)).put psi_start (entry state 2)).put v_start (entry state 3)).put
      cte_start (entry state 4)).put epsi_start (entry state 5)
  constraints_upperbound :=
    ((((((fill 0 0 n_constraints (Dvector.alloc n_constraints)).put x_start (entry state 0)).put
      y_start (entry state 1)).put psi_start (entry state 2)).put v_start (entry state 3)).put
      cte_start (entry state 4)).put epsi_start (entry state 5)

/-- The elements pushed by passes `lo, ..., lo + n - 1` of the loop of lines
266-269, bounds checks left out. -/
def waypoints (x : List α) : Nat → Nat → List α
  | _, 0 => []
  | lo, n + 1 =>
    entry x (x_start + lo + 1) :: entry x (y_start + lo + 1) :: waypoints x (lo + 1) n

/-- The vector returned by `Solve`, from `solution.x`, bounds checks left out. -/
def resultFinal (x : List α) : List α :=
  entry x delta_start :: entry x a_start :: waypoints x 0 (N - 1)

/-- The initial guess as a read-only vector, bounds checks left out. -/
def guessFinal (state : List α) : List α :=
  (List.range n_vars).map (initialGuess state)

/-- The decision vector of the vehicle that keeps speed 70 and heading `psi`
from `(x, y)`, with zero errors and zero actuations. -/
def straightVars (tr : Trig α) (x y psi : α) : List α :=
  (List.range n_vars).map fun i =>
    if i < y_start then x + (i : α) * (70 * tr.cos psi * 0.1)
    else if i < psi_start then y + ((i - y_start : Nat) : α) * (70 * tr.sin psi * 0.1)
    else if i < v_start then psi
    else if i < cte_start then 70
    else 0

end ClosedForms

/-! ## Basic facts about vectors and loops -/

section Basics

variable {α : Type}

@[simp] theorem ok_bind {ε β γ : Type} (a : β) (f : β → Except ε γ) :
    (Except.ok a >>= f) = f a := rfl

@[simp] theorem pure_eq_ok {ε β : Type} (a : β) : (pure a : Except ε β) = Except.ok a := rfl

theorem rd_ok [Zero α] {v : List α} {i : Nat} (h : i < v.length) :
    rd v i = .ok (v.getD i 0) := by
  simp [rd, List.getD, List.getElem?_eq_getElem h]

@[simp] theorem Dvector.size_put (v : Dvector α) (i : Nat) (x : α) :
    (v.put i x).size = v.size := by
  simp [Dvector.put, Dvector.size]

theorem Dvector.write_ok {v : Dvector α} {i : Nat} (x : α) (h : i < v.size) :
    v.write i x = .ok (v.put i x) := by
  simp [Dvector.write, h]

theorem Dvector.read_put_same {v : Dvector α} {i : Nat} (x : α) (h : i < v.size) :
    (v.put i x).read i = .ok x := by
  unfold Dvector.size at h
  simp [Dvector.read, Dvector.put, List.getElem?_set_self, h]

theorem Dvector.read_put_other {v : Dvector α} {i j : Nat} (x : α) (h : i ≠ j) :
    (v.put i x).read j = v.read j := by
  simp [Dvector.read, Dvector.put, List.getElem?_set_ne h]

theorem Dvector.read_put {v : Dvector α} {i : Nat} (x : α) (j : Nat) (h : i < v.size) :
    (v.put i x).read j = if i = j then .ok x else v.read j := by
  by_cases hij : i = j
  · subst hij; simp [Dvector.read_put_same x h]
  · simp [hij, Dvector.read_put_other x hij]

theorem Dvector.addTo_ok [Add α] {v : Dvector α} {i : Nat} {a : α} (x : α)
    (h : v.read i = .ok a) : v.addTo i x = .ok (v.put i (a + x)) := by
  have hi : i < v.size := by
    unfold Dvector.read at h
    unfold Dvector.size
    by_contra hn
    rw [List.getElem?_eq_none (by omega)] at h
    cases h
  simp [Dvector.addTo, h, Dvector.write_ok _ hi]

theorem forLoop_zero {σ : Type} (body : Nat → σ → Except Fault σ) (lo : Nat) (s : σ) :
    forLoop body lo 0 s = .ok s := rfl

theorem forLoop_succ {σ : Type} (body : Nat → σ → Except Fault σ) (lo n : Nat) (s : σ) :
    forLoop body lo (n + 1) s = (body lo s >>= forLoop body (lo + 1) n) := rfl

theorem Dvector.put_zero_eq_acc (v : Dvector α) (a : α) : v.put 0 a = v.acc a 1 := by
  simp [Dvector.put, Dvector.acc]

theorem Dvector.acc_put (v : Dvector α) (a b : α) (k : Nat) :
    (v.acc a k).put 0 b = v.acc b (k + 1) := by
  simp [Dvector.put, Dvector.acc, List.replicate_succ', List.append_assoc]

@[simp] theorem Dvector.size_acc (v : Dvector α) (a : α) (k : Nat) :
    (v.acc a k).size = v.size := by
  simp [Dvector.acc, Dvector.size]

theorem Dvector.read_acc_zero {v : Dvector α} (a : α) (k : Nat) (h : 0 < v.size) :
    (v.acc a k).read 0 = .ok a := by
  unfold Dvector.size at h
  simp [Dvector.read, Dvector.acc, h]

theorem Dvector.read_acc_other (v : Dvector α) (a : α) (k : Nat) {j : Nat} (h : 0 ≠ j) :
    (v.acc a k).read j = v.read j := by
  simp [Dvector.read, Dvector.acc, List.getElem?_set_ne h]

theorem Dvector.addTo_acc [Add α] {v : Dvector α} (a x : α) (k : Nat) (h : 0 < v.size) :
    (v.acc a k).addTo 0 x = .ok (v.acc (a + x) (k + 1)) := by
  rw [Dvector.addTo_ok x (Dvector.read_acc_zero a k h), Dvector.acc_put]

end Basics

/-! ## The cost part of `FG_eval` -/

section CostFacts

variable {α : Type} [LinearOrderedField α]

theorem rd_entry {v : List α} {i : Nat} (h : i < v.length) : rd v i = .ok (entry v i) :=
  rd_ok h

theorem refCostBody_acc {vars : List α} {fg : Dvector α} (a : α) (k : Nat) {t : Nat}
    (hv : vars.length = n_vars) (hfg : 0 < fg.size) (ht : t < N) :
    refCostBody vars t (fg.acc a k) = .ok (fg.acc (a + refTerm vars t) (k + 3)) := by
  have h1 : cte_start + t < vars.length := by
    simp only [hv, n_vars, cte_start, v_start, psi_start, y_start, x_start, N] at *; omega
  have h2 : epsi_start + t < vars.length := by
    simp only [hv, n_vars, epsi_start, cte_start, v_start, psi_start, y_start, x_start, N] at *
    omega
  have h3 : v_start + t < vars.length := by
    simp only [hv, n_vars, v_start, psi_start, y_start, x_start, N] at *; omega
  simp only [refCostBody, rd_entry h1, rd_entry h2, rd_entry h3, ok_bind,
    Dvector.addTo_acc _ _ _ hfg, refTerm]
  congr 2
  ring

theorem actCostBody_acc {vars : List α} {fg : Dvector α} (a : α) (k : Nat) {t : Nat}
    (hv : vars.length = n_vars) (hfg : 0 < fg.size) (ht : t < N - 1) :
    actCostBody vars t (fg.acc a k) = .ok (fg.acc (a + actTerm vars t) (k + 3)) := by
  have h1 : delta_start + t < vars.length := by
    simp only [hv, n_vars, delta_start, epsi_start, cte_start, v_start, psi_start, y_start,
      x_start, N] at *
    omega
  have h2 : a_start + t < vars.length := by
    simp only [hv, n_vars, a_start, delta_start, epsi_start, cte_start, v_start, psi_start,
      y_start, x_start, N] at *
    omega
  have h3 : v_start + t < vars.length := by
    simp only [hv, n_vars, v_start, psi_start, y_start, x_start, N] at *; omega
  simp only [actCostBody, rd_entry h1, rd_entry h2, rd_entry h3, ok_bind,
    Dvector.addTo_acc _ _ _ hfg, actTerm]
  congr 2
  ring

theorem gapCostBody_acc {vars : List α} {fg : Dvector α} (a : α) (k : Nat) {t : Nat}
    (hv : vars.length = n_vars) (hfg : 0 < fg.size) (ht : t < N - 2) :
    gapCostBody vars t (fg.acc a k) = .ok (fg.acc (a + gapTerm vars t) (k + 2)) := by
  have h1 : delta_start + t + 1 < vars.length := by
    simp only [hv, n_vars, delta_start, epsi_start, cte_start, v_start, psi_start, y_start,
      x_start, N] at *
    omega
  have h2 : delta_start + t < vars.length := by omega
  have h3 : a_start + t + 1 < vars.length := by
    simp only [hv, n_vars, a_start, delta_start, epsi_start, cte_start, v_start, psi_start,
      y_start, x_start, N] at *
    omega
  have h4 : a_start + t < vars.length := by omega
  simp only [gapCostBody, rd_entry h1, rd_entry h2, rd_entry h3, rd_entry h4, ok_bind,
    Dvector.addTo_acc _ _ _ hfg, gapTerm]
  congr 2
  ring

/-- A loop whose passes each add one term to `fg[0]` adds the sum of the terms. -/
theorem forLoop_acc {fg : Dvector α} (body : Nat → Dvector α → Except Fault (Dvector α))
    (term : Nat → α) (w hi : Nat)
    (hbody : ∀ a k t, t < hi → body t (fg.acc a k) = .ok (fg.acc (a + term t) (k + w)))
    (n : Nat) : ∀ (lo : Nat) (a : α) (k : Nat), lo + n ≤ hi →
      forLoop body lo n (fg.acc a k)
        = .ok (fg.acc (a + ∑ i ∈ Finset.range n, term (lo + i)) (k + w * n)) := by
  induction n with
  | zero => intro lo a k _; simp [forLoop_zero]
  | succ n ih =>
    intro lo a k h
    rw [forLoop_succ, hbody a k lo (by omega), ok_bind, ih (lo + 1) _ _ (by omega),
      Finset.sum_range_succ']
    congr 2
    · have : ∀ i, lo + 1 + i = lo + (i + 1) := fun i => by omega
      simp only [this, Nat.add_zero]
      ring
    · ring

theorem FG_eval_cost_ok {vars : List α} {fg : Dvector α}
    (hv : vars.length = n_vars) (hfg : 0 < fg.size) :
    FG_eval_cost vars fg = .ok (fg.acc (cost_code vars) 74) := by
  unfold FG_eval_cost forRange
  rw [Dvector.write_ok _ hfg, ok_bind, Dvector.put_zero_eq_acc,
    forLoop_acc (refCostBody vars) (refTerm vars) 3 N
      (fun a k t ht => refCostBody_acc a k hv hfg ht) _ _ _ _ (by omega),
    ok_bind,
    forLoop_acc (actCostBody vars) (actTerm vars) 3 (N - 1)
      (fun a k t ht => actCostBody_acc a k hv hfg ht) _ _ _ _ (by omega),
    ok_bind,
    forLoop_acc (gapCostBody vars) (gapTerm vars) 2 (N - 2)
      (fun a k t ht => gapCostBody_acc a k hv hfg ht) _ _ _ _ (by omega)]
  rfl

theorem cost_code_eq_spec (vars : List α) : cost_code vars = cost_spec vars := by
  simp only [cost_code, cost_spec, refTerm, actTerm, gapTerm, cte_gain, epsi_gain, v_gain,
    ref_v, delta_gain, a_gain, delta_a_gain, delta_s_gain, a_s_gain, zero_add, Nat.zero_add,
    Nat.add_assoc]

end CostFacts

/-! ## The constraint part of `FG_eval` -/

section ConstraintFacts

variable {α : Type} [LinearOrderedField α]

@[simp] theorem kinPuts_size (tr : Trig α) (coeffs vars : List α) (t : Nat) (fg : Dvector α) :
    (kinPuts tr coeffs vars t fg).size = fg.size := by
  simp [kinPuts]

@[simp] theorem initPuts_size (vars : List α) (fg : Dvector α) :
    (initPuts vars fg).size = fg.size := by
  simp [initPuts]

theorem initConstraints_ok {vars : List α} {fg : Dvector α}
    (hv : vars.length = n_vars) (hfg : fg.size = 1 + n_constraints) :
    initConstraints vars fg = .ok (initPuts vars fg) := by
  simp only [n_vars, n_constraints, N] at hv hfg
  simp only [initConstraints, initPuts, x_start, y_start, psi_start, v_start, cte_start,
    epsi_start, N]
  simp (disch := first | omega | (simp only [Dvector.size_put]; omega)) only
    [rd_entry, Dvector.write_ok, ok_bind]

theorem kinematicBody_ok {tr : Trig α} {coeffs vars : List α} {fg : Dvector α} {t : Nat}
    (hv : vars.length = n_vars) (hc : 3 ≤ coeffs.length)
    (hfg : fg.size = 1 + n_constraints) (h1 : 1 ≤ t) (ht : t < N) :
    kinematicBody tr coeffs vars t fg = .ok (kinPuts tr coeffs vars t fg) := by
  simp only [n_vars, n_constraints, N] at hv hfg ht
  simp only [kinematicBody, kinPuts, resX, resY, resPsi, resV, resCte, resEpsi, usedDelta,
    usedA, x_start, y_start, psi_start, v_start, cte_start, epsi_start, delta_start, a_start, N]
  by_cases h : t > 1
  · simp (disch := first | omega | (simp only [Dvector.size_put]; omega)) only
      [rd_entry, Dvector.write_ok, ok_bind, if_pos h, pure_eq_ok]
  · simp (disch := first | omega | (simp only [Dvector.size_put]; omega)) only
      [rd_entry, Dvector.write_ok, ok_bind, if_neg h, pure_eq_ok]

@[simp] theorem kinAll_size (tr : Trig α) (coeffs vars : List α) (n : Nat) :
    ∀ (lo : Nat) (fg : Dvector α), (kinAll tr coeffs vars lo n fg).size = fg.size := by
  induction n with
  | zero => intro lo fg; rfl
  | succ n ih => intro lo fg; rw [kinAll, ih, kinPuts_size]

theorem forLoop_kinematicBody {tr : Trig α} {coeffs vars : List α}
    (hv : vars.length = n_vars) (hc : 3 ≤ coeffs.length) (n : Nat) :
    ∀ (lo : Nat) (fg : Dvector α), fg.size = 1 + n_constraints → 1 ≤ lo → lo + n ≤ N →
      forLoop (kinematicBody tr coeffs vars) lo n fg = .ok (kinAll tr coeffs vars lo n fg) := by
  induction n with
  | zero => intro lo fg _ _ _; rfl
  | succ n ih =>
    intro lo fg hfg h1 h2
    rw [forLoop_succ, kinematicBody_ok hv hc hfg h1 (by omega), ok_bind,
      ih (lo + 1) _ (by rw [kinPuts_size]; exact hfg) (by omega) (by omega), kinAll]

theorem FG_eval_ok {tr : Trig α} {coeffs vars : List α} {fg : Dvector α}
    (hv : vars.length = n_vars) (hc : 3 ≤ coeffs.length) (hfg : fg.size = 1 + n_constraints) :
    FG_eval tr coeffs fg vars = .ok (fgFinal tr coeffs fg vars) := by
  have h0 : 0 < fg.size := by omega
  unfold FG_eval FG_eval_constraints forRange
  rw [FG_eval_cost_ok hv h0, ok_bind,
    initConstraints_ok hv (by rw [Dvector.size_acc]; exact hfg), ok_bind,
    forLoop_kinematicBody hv hc _ _ _
      (by rw [initPuts_size, Dvector.size_acc]; exact hfg) (by omega) (by simp [N])]
  rfl

theorem fgFinal_size (tr : Trig α) (coeffs : List α) (fg : Dvector α) (vars : List α) :
    (fgFinal tr coeffs fg vars).size = fg.size := by
  simp [fgFinal]

theorem fgFinal_read_cost (tr : Trig α) (coeffs vars : List α) {fg : Dvector α}
    (hfg : fg.size = 1 + n_constraints) :
    (fgFinal tr coeffs fg vars).read 0 = .ok (cost_code vars) := by
  simp only [n_constraints, N] at hfg
  simp only [fgFinal, kinAll, kinPuts, initPuts, x_start, y_start, psi_start, v_start,
    cte_start, epsi_start, N]
  simp (disch := first | omega | (simp only [Dvector.size_put, Dvector.size_acc]; omega))
    [Dvector.read_put, Dvector.read_acc_zero]

theorem fgFinal_read_init (tr : Trig α) (coeffs vars : List α) {fg : Dvector α}
    (hfg : fg.size = 1 + n_constraints) :
    (fgFinal tr coeffs fg vars).read (1 + x_start) = .ok (entry vars x_start)
    ∧ (fgFinal tr coeffs fg vars).read (1 + y_start) = .ok (entry vars y_start)
    ∧ (fgFinal tr coeffs fg vars).read (1 + psi_start) = .ok (entry vars psi_start)
    ∧ (fgFinal tr coeffs fg vars).read (1 + v_start) = .ok (entry vars v_start)
    ∧ (fgFinal tr coeffs fg vars).read (1 + cte_start) = .ok (entry vars cte_start)
    ∧ (fgFinal tr coeffs fg vars).read (1 + epsi_start) = .ok (entry vars epsi_start) := by
  simp only [n_constraints, N] at hfg
  simp only [fgFinal, kinAll, kinPuts, initPuts, x_start, y_start, psi_start, v_start,
    cte_start, epsi_start, N]
  simp (disch := first | omega | (simp only [Dvector.size_put, Dvector.size_acc]; omega))
    [Dvector.read_put]

theorem kinPuts_read_other (tr : Trig α) (coeffs vars : List α) (fg : Dvector α)
    {t j : Nat} (hx : 1 + x_start + t ≠ j) (hy : 1 + y_start + t ≠ j)
    (hpsi : 1 + psi_start + t ≠ j) (hv : 1 + v_start + t ≠ j)
    (hcte : 1 + cte_start + t ≠ j) (hepsi : 1 + epsi_start + t ≠ j) :
    (kinPuts tr coeffs vars t fg).read j = fg.read j := by
  simp only [kinPuts, Dvector.read_put_other _ hx, Dvector.read_put_other _ hy,
    Dvector.read_put_other _ hpsi, Dvector.read_put_other _ hv,
    Dvector.read_put_other _ hcte, Dvector.read_put_other _ hepsi]

theorem kinAll_read_other (tr : Trig α) (coeffs vars : List α) (j : Nat) (n : Nat) :
    ∀ (lo : Nat) (fg : Dvector α),
      (∀ t, lo ≤ t → t < lo + n →
        1 + x_start + t ≠ j ∧ 1 + y_start + t ≠ j ∧ 1 + psi_start + t ≠ j
          ∧ 1 + v_start + t ≠ j ∧ 1 + cte_start + t ≠ j ∧ 1 + epsi_start + t ≠ j) →
      (kinAll tr coeffs vars lo n fg).read j = fg.read j := by
  induction n with
  | zero => intro lo fg _; rfl
  | succ n ih =>
    intro lo fg h
    rw [kinAll, ih (lo + 1) _ (fun t h1 h2 => h t (by omega) (by omega))]
    obtain ⟨hx, hy, hpsi, hv, hcte, hepsi⟩ := h lo (le_refl _) (by omega)
    exact kinPuts_read_other tr coeffs vars fg hx hy hpsi hv hcte hepsi

theorem kinPuts_read_slot (tr : Trig α) (coeffs vars : List α) {fg : Dvector α} {t : Nat}
    (hfg : fg.size = 1 + n_constraints) (ht : t < N) :
    (kinPuts tr coeffs vars t fg).read (1 + x_start + t) = .ok (resX tr vars t)
    ∧ (kinPuts tr coeffs vars t fg).read (1 + y_start + t) = .ok (resY tr vars t)
    ∧ (kinPuts tr coeffs vars t fg).read (1 + psi_start + t) = .ok (resPsi vars t)
    ∧ (kinPuts tr coeffs vars t fg).read (1 + v_start + t) = .ok (resV vars t)
    ∧ (kinPuts tr coeffs vars t fg).read (1 + cte_start + t) = .ok (resCte tr coeffs vars t)
    ∧ (kinPuts tr coeffs vars t fg).read (1 + epsi_start + t)
        = .ok (resEpsi tr coeffs vars t) := by
  simp only [n_constraints, N] at hfg ht
  simp only [kinPuts, x_start, y_start, psi_start, v_start, cte_start, epsi_start, N]
  refine ⟨?_, ?_, ?_, ?_, ?_, ?_⟩ <;>
  simp (disch := first | omega | (simp only [Dvector.size_put]; omega)) only
    [Dvector.read_put_other, Dvector.read_put_same]

theorem kinAll_read_slot (tr : Trig α) (coeffs vars : List α) (n : Nat) :
    ∀ (lo : Nat) (fg : Dvector α) (t : Nat), fg.size = 1 + n_constraints →
      lo ≤ t → t < lo + n → lo + n ≤ N →
      (kinAll tr coeffs vars lo n fg).read (1 + x_start + t) = .ok (resX tr vars t)
      ∧ (kinAll tr coeffs vars lo n fg).read (1 + y_start + t) = .ok (resY tr vars t)
      ∧ (kinAll tr coeffs vars lo n fg).read (1 + psi_start + t) = .ok (resPsi vars t)
      ∧ (kinAll tr coeffs vars lo n fg).read (1 + v_start + t) = .ok (resV vars t)
      ∧ (kinAll tr coeffs vars lo n fg).read (1 + cte_start + t)
          = .ok (resCte tr coeffs vars t)
      ∧ (kinAll tr coeffs vars lo n fg).read (1 + epsi_start + t)
          = .ok (resEpsi tr coeffs vars t) := by
  induction n with
  | zero => intro lo fg t _ h1 h2 _; omega
  | succ n ih =>
    intro lo fg t hfg h1 h2 h3
    rw [kinAll]
    by_cases h : t = lo
    · subst h
      have hfree : ∀ j, (j = 1 + x_start + t ∨ j = 1 + y_start + t ∨ j = 1 + psi_start + t
          ∨ j = 1 + v_start + t ∨ j = 1 + cte_start + t ∨ j = 1 + epsi_start + t) →
          (kinAll tr coeffs vars (t + 1) n (kinPuts tr coeffs vars t fg)).read j
            = (kinPuts tr coeffs vars t fg).read j := by
        intro j hj
        apply kinAll_read_other
        intro s hs1 hs2
        simp only [x_start, y_start, psi_start, v_start, cte_start, epsi_start, N] at *
        omega
      rw [hfree _ (Or.inl rfl), hfree _ (Or.inr (Or.inl rfl)),
        hfree _ (Or.inr (Or.inr (Or.inl rfl))),
        hfree _ (Or.inr (Or.inr (Or.inr (Or.inl rfl)))),
        hfree _ (Or.inr (Or.inr (Or.inr (Or.inr (Or.inl rfl))))),
        hfree _ (Or.inr (Or.inr (Or.inr (Or.inr (Or.inr rfl)))))]
      exact kinPuts_read_slot tr coeffs vars hfg (by omega)
    · exact ih (lo + 1) _ t (by rw [kinPuts_size]; exact hfg) (by omega) (by omega) (by omega)

theorem fgFinal_read_step (tr : Trig α) (coeffs vars : List α) {fg : Dvector α} {t : Nat}
    (hfg : fg.size = 1 + n_constraints) (h1 : 1 ≤ t) (ht : t < N) :
    (fgFinal tr coeffs fg vars).read (1 + x_start + t) = .ok (resX tr vars t)
    ∧ (fgFinal tr coeffs fg vars).read (1 + y_start + t) = .ok (resY tr vars t)
    ∧ (fgFinal tr coeffs fg vars).read (1 + psi_start + t) = .ok (resPsi vars t)
    ∧ (fgFinal tr coeffs fg vars).read (1 + v_start + t) = .ok (resV vars t)
    ∧ (fgFinal tr coeffs fg vars).read (1 + cte_start + t) = .ok (resCte tr coeffs vars t)
    ∧ (fgFinal tr coeffs fg vars).read (1 + epsi_start + t)
        = .ok (resEpsi tr coeffs vars t) :=
  kinAll_read_slot tr coeffs vars (N - 1) 1 _ t
    (by rw [initPuts_size, Dvector.size_acc]; exact hfg) h1
    (by simp only [N] at *; omega) (by simp [N])

end ConstraintFacts

/-! ## The claims about `FG_eval` -/

section FGClaims

variable {α : Type} [LinearOrderedField α]

/-- C1: for every decision vector of length `6N + 2(N-1)`, `FG_eval` returns and
the objective `fg[0]` it leaves is the weighted sum of the specification:
reference tracking over `[0,N)`, actuator magnitude over `[0,N-1)`, actuator
smoothness over `[0,N-2)`, with weights 2500, 500, 1, 500, 1, 100, 10, 10 and
reference speed 70, and nothing else. -/
theorem C1_objective_is_weighted_sum (tr : Trig α) (coeffs vars : List α) (fg : Dvector α)
    (hv : vars.length = 6 * N + 2 * (N - 1)) (hc : 3 ≤ coeffs.length)
    (hfg : fg.size = 1 + 6 * N) :
    ∃ fg', FG_eval tr coeffs fg vars = .ok fg' ∧ fg'.read 0 = .ok (cost_spec vars) :=
  ⟨fgFinal tr coeffs fg vars, FG_eval_ok hv hc hfg,
    by rw [fgFinal_read_cost tr coeffs vars hfg, cost_code_eq_spec]⟩

/-- Witness of C1 on the zero decision vector: every speed term is `70 ^ 2`. -/
theorem C1_objective_is_weighted_sum_witness :
    (List.replicate 78 (0 : ℝ)).length = 6 * N + 2 * (N - 1)
    ∧ 3 ≤ ([0, 0, 0] : List ℝ).length
    ∧ (Dvector.alloc 61 : Dvector ℝ).size = 1 + 6 * N
    ∧ ∃ fg', FG_eval ⟨Real.cos, Real.sin, Real.arctan⟩ [0, 0, 0] (Dvector.alloc 61)
          (List.replicate 78 (0 : ℝ)) = .ok fg'
        ∧ fg'.read 0 = .ok (cost_spec (List.replicate 78 (0 : ℝ))) :=
  ⟨by rfl, by decide, by rfl,
    C1_objective_is_weighted_sum _ _ _ _ (by rfl) (by decide) (by rfl)⟩

theorem usedDelta_eq (vars : List α) {t : Nat} (h1 : 1 ≤ t) :
    usedDelta vars t = entry vars (delta_start + actuatorStep t) := by
  unfold usedDelta actuatorStep
  by_cases h : t > 1
  · have h2 : 2 ≤ t := h
    rw [if_pos h, if_pos h2]
    congr 1
    omega
  · have h2 : ¬ 2 ≤ t := h
    rw [if_neg h, if_neg h2]
    congr 1
    omega

theorem usedA_eq (vars : List α) {t : Nat} (h1 : 1 ≤ t) :
    usedA vars t = entry vars (a_start + actuatorStep t) := by
  unfold usedA actuatorStep
  by_cases h : t > 1
  · have h2 : 2 ≤ t := h
    rw [if_pos h, if_pos h2]
    congr 1
    simp only [a_start, delta_start, epsi_start, cte_start, v_start, psi_start, y_start,
      x_start, N]
    omega
  · have h2 : ¬ 2 ≤ t := h
    rw [if_neg h, if_neg h2]
    congr 1
    omega

theorem resX_eq (tr : Trig α) (vars : List α) {t : Nat} (h1 : 1 ≤ t) :
    resX tr vars t = entry vars (x_start + t) - predX tr vars t := by
  simp only [resX, line_x, predX, dt, Nat.add_sub_assoc h1]

theorem resY_eq (tr : Trig α) (vars : List α) {t : Nat} (h1 : 1 ≤ t) :
    resY tr vars t = entry vars (y_start + t) - predY tr vars t := by
  simp only [resY, line_y, predY, dt, Nat.add_sub_assoc h1]

theorem resPsi_eq (vars : List α) {t : Nat} (h1 : 1 ≤ t) :
    resPsi vars t
      = entry vars (psi_start + t) - predPsi vars t (entry vars (delta_start + actuatorStep t)) := by
  simp only [resPsi, line_psi, predPsi, dt, Lf, Nat.add_sub_assoc h1, usedDelta_eq vars h1,
    mul_div_assoc]

theorem resV_eq (vars : List α) {t : Nat} (h1 : 1 ≤ t) :
    resV vars t
      = entry vars (v_start + t) - predV vars t (entry vars (a_start + actuatorStep t)) := by
  simp only [resV, line_v, predV, dt, Nat.add_sub_assoc h1, usedA_eq vars h1]

/-- C2: for every decision vector and every step `1 <= t < N`, `FG_eval` returns
and the residuals it writes for the x, y, psi and v channels are the state at
`t` minus its forward-Euler prediction from the state at `t - 1` (with
`dt = 0.1`, `Lf = 2.67` and the actuator pair of step `t`); so each of them is
zero exactly when the state at `t` equals the prediction. -/
theorem C2_euler_residuals (tr : Trig α) (coeffs vars : List α) (fg : Dvector α) (t : Nat)
    (hv : vars.length = 6 * N + 2 * (N - 1)) (hc : 3 ≤ coeffs.length)
    (hfg : fg.size = 1 + 6 * N) (h1 : 1 ≤ t) (ht : t < N) :
    ∃ fg', FG_eval tr coeffs fg vars = .ok fg'
      ∧ fg'.read (1 + x_start + t) = .ok (entry vars (x_start + t) - predX tr vars t)
      ∧ fg'.read (1 + y_start + t) = .ok (entry vars (y_start + t) - predY tr vars t)
      ∧ fg'.read (1 + psi_start + t) = .ok (entry vars (psi_start + t)
          - predPsi vars t (entry vars (delta_start + actuatorStep t)))
      ∧ fg'.read (1 + v_start + t) = .ok (entry vars (v_start + t)
          - predV vars t (entry vars (a_start + actuatorStep t)))
      ∧ (entry vars (x_start + t) - predX tr vars t = 0
          ↔ entry vars (x_start + t) = predX tr vars t)
      ∧ (entry vars (y_start + t) - predY tr vars t = 0
          ↔ entry vars (y_start + t) = predY tr vars t)
      ∧ (entry vars (psi_start + t)
            - predPsi vars t (entry vars (delta_start + actuatorStep t)) = 0
          ↔ entry vars (psi_start + t)
            = predPsi vars t (entry vars (delta_start + actuatorStep t)))
      ∧ (entry vars (v_start + t) - predV vars t (entry vars (a_start + actuatorStep t)) = 0
          ↔ entry vars (v_start + t)
            = predV vars t (entry vars (a_start + actuatorStep t))) := by
  obtain ⟨hx, hy, hpsi, hvv, _, _⟩ :=
    fgFinal_read_step tr coeffs vars hfg h1 ht
  rw [resX_eq tr vars h1] at hx
  rw [resY_eq tr vars h1] at hy
  rw [resPsi_eq vars h1] at hpsi
  rw [resV_eq vars h1] at hvv
  exact ⟨fgFinal tr coeffs fg vars, FG_eval_ok hv hc hfg, hx, hy, hpsi, hvv,
    sub_eq_zero, sub_eq_zero, sub_eq_zero, sub_eq_zero⟩

/-- Witness of C2: step 1 of the zero decision vector. -/
theorem C2_euler_residuals_witness :
    (List.replicate 78 (0 : ℝ)).length = 6 * N + 2 * (N - 1)
    ∧ 3 ≤ ([0, 0, 0] : List ℝ).length
    ∧ (Dvector.alloc 61 : Dvector ℝ).size = 1 + 6 * N ∧ 1 ≤ 1 ∧ 1 < N
    ∧ ∃ fg', FG_eval ⟨Real.cos, Real.sin, Real.arctan⟩ [0, 0, 0] (Dvector.alloc 61)
          (List.replicate 78 (0 : ℝ)) = .ok fg'
        ∧ fg'.read (1 + x_start + 1) = .ok (entry (List.replicate 78 (0 : ℝ)) (x_start + 1)
            - predX ⟨Real.cos, Real.sin, Real.arctan⟩ (List.replicate 78 (0 : ℝ)) 1) :=
  ⟨by rfl, by decide, by rfl, by decide, by decide,
    (C2_euler_residuals ⟨Real.cos, Real.sin, Real.arctan⟩ [0, 0, 0] (List.replicate 78 (0 : ℝ))
      (Dvector.alloc 61) 1 (by rfl) (by decide) (by rfl) (by decide) (by decide)).imp
      fun _ h => ⟨h.1, h.2.1⟩⟩

theorem entry_take_three (c : List α) {i : Nat} (hi : i < 3) :
    entry (c.take 3) i = entry c i := by
  simp [entry, List.getD_eq_getElem?_getD, List.getElem?_take, hi]

theorem line_f0_eq_polyEval (c : List α) (x : α) (hc : 3 ≤ c.length) :
    line_f0 (entry c 0) (entry c 1) (entry c 2) x = polyEval (c.take 3) x := by
  have hl : (c.take 3).length = 3 := by simp [hc]
  simp only [polyEval, hl, Finset.sum_range_succ, Finset.sum_range_zero, line_f0,
    entry_take_three c (show 0 < 3 by decide), entry_take_three c (show 1 < 3 by decide),
    entry_take_three c (show 2 < 3 by decide)]
  ring

theorem line_psides0_eq_polyDeriv (tr : Trig α) (c : List α) (x : α) (hc : 3 ≤ c.length) :
    line_psides0 tr (entry c 1) (entry c 2) x = tr.atan (polyDeriv (c.take 3) x) := by
  have hl : (c.take 3).length = 3 := by simp [hc]
  simp only [polyDeriv, hl, Finset.sum_range_succ, Finset.sum_range_zero, line_psides0,
    entry_take_three c (show 0 < 3 by decide), entry_take_three c (show 1 < 3 by decide),
    entry_take_three c (show 2 < 3 by decide)]
  congr 1
  push_cast
  ring

theorem resCte_eq (tr : Trig α) (coeffs vars : List α) {t : Nat} (h1 : 1 ≤ t)
    (hc : 3 ≤ coeffs.length) :
    resCte tr coeffs vars t = entry vars (cte_start + t)
      - predCte tr vars t (polyEval (coeffs.take 3) (entry vars (x_start + (t - 1)))) := by
  simp only [resCte, line_cte, predCte, dt, Nat.add_sub_assoc h1,
    line_f0_eq_polyEval coeffs _ hc]

theorem resEpsi_eq (tr : Trig α) (coeffs vars : List α) {t : Nat} (h1 : 1 ≤ t)
    (hc : 3 ≤ coeffs.length) :
    resEpsi tr coeffs vars t = entry vars (epsi_start + t)
      - predEpsi vars t (tr.atan (polyDeriv (coeffs.take 3) (entry vars (x_start + (t - 1)))))
          (entry vars (delta_start + actuatorStep t)) := by
  simp only [resEpsi, line_epsi, predEpsi, dt, Lf, Nat.add_sub_assoc h1,
    usedDelta_eq vars h1, mul_div_assoc, line_psides0_eq_polyDeriv tr coeffs _ hc]

/-- C3, as amended: for every coefficient vector with at least three entries and
every step `1 <= t < N`, `FG_eval` returns and the cte and epsi residuals are
`cte_t - ((f(x_{t-1}) - y_{t-1}) + v_{t-1}*sin(epsi_{t-1})*dt)` and
`epsi_t - ((psi_{t-1} - psides_{t-1}) + v_{t-1}*(delta/Lf)*dt)`, where `f` is the
polynomial of the first three coefficients only and `psides = atan(f')` with
`f'` the derivative of that polynomial; this is the whole fitted polynomial
when the vector has exactly three coefficients. -/
theorem C3_path_residuals_quadratic (tr : Trig α) (coeffs vars : List α) (fg : Dvector α)
    (t : Nat) (hv : vars.length = 6 * N + 2 * (N - 1)) (hc : 3 ≤ coeffs.length)
    (hfg : fg.size = 1 + 6 * N) (h1 : 1 ≤ t) (ht : t < N) :
    ∃ fg', FG_eval tr coeffs fg vars = .ok fg'
      ∧ fg'.read (1 + cte_start + t) = .ok (entry vars (cte_start + t)
          - predCte tr vars t (polyEval (coeffs.take 3) (entry vars (x_start + (t - 1)))))
      ∧ fg'.read (1 + epsi_start + t) = .ok (entry vars (epsi_start + t)
          - predEpsi vars t
              (tr.atan (polyDeriv (coeffs.take 3) (entry vars (x_start + (t - 1)))))
              (entry vars (delta_start + actuatorStep t)))
      ∧ (coeffs.length = 3 →
          fg'.read (1 + cte_start + t) = .ok (entry vars (cte_start + t)
            - predCte tr vars t (polyEval coeffs (entry vars (x_start + (t - 1)))))
          ∧ fg'.read (1 + epsi_start + t) = .ok (entry vars (epsi_start + t)
            - predEpsi vars t
                (tr.atan (polyDeriv coeffs (entry vars (x_start + (t - 1)))))
                (entry vars (delta_start + actuatorStep t)))) := by
  obtain ⟨_, _, _, _, hcte, hepsi⟩ :=
    fgFinal_read_step tr coeffs vars hfg h1 ht
  rw [resCte_eq tr coeffs vars h1 hc] at hcte
  rw [resEpsi_eq tr coeffs vars h1 hc] at hepsi
  refine ⟨fgFinal tr coeffs fg vars, FG_eval_ok hv hc hfg, hcte, hepsi, fun h3 => ?_⟩
  have htake : coeffs.take 3 = coeffs := List.take_of_length_le (le_of_eq h3)
  rw [htake] at hcte hepsi
  exact ⟨hcte, hepsi⟩

/-- Witness of C3 as amended: step 1 of the zero decision vector on the path
`1 + 2x + 3x^2`. -/
theorem C3_path_residuals_quadratic_witness :
    (List.replicate 78 (0 : ℝ)).length = 6 * N + 2 * (N - 1)
    ∧ 3 ≤ ([1, 2, 3] : List ℝ).length
    ∧ (Dvector.alloc 61 : Dvector ℝ).size = 1 + 6 * N ∧ 1 ≤ 1 ∧ 1 < N
    ∧ ∃ fg', FG_eval ⟨Real.cos, Real.sin, Real.arctan⟩ [1, 2, 3] (Dvector.alloc 61)
          (List.replicate 78 (0 : ℝ)) = .ok fg'
        ∧ fg'.read (1 + cte_start + 1) = .ok (entry (List.replicate 78 (0 : ℝ)) (cte_start + 1)
            - predCte ⟨Real.cos, Real.sin, Real.arctan⟩ (List.replicate 78 (0 : ℝ)) 1
                (polyEval (([1, 2, 3] : List ℝ).take 3)
                  (entry (List.replicate 78 (0 : ℝ)) (x_start + (1 - 1))))) :=
  ⟨by rfl, by decide, by rfl, by decide, by decide,
    (C3_path_residuals_quadratic ⟨Real.cos, Real.sin, Real.arctan⟩ [1, 2, 3]
      (List.replicate 78 (0 : ℝ)) (Dvector.alloc 61) 1 (by rfl) (by decide) (by rfl)
      (by decide) (by decide)).imp fun _ h => ⟨h.1, h.2.1⟩⟩

/-- C3 fails as stated: on the cubic path `f(x) = x^3` (coefficients `0, 0, 0, 1`)
with `x_0 = 1` and every other entry `0`, the cte residual of step 1 written by
`FG_eval` is `0`, while the claimed formula, with the whole polynomial
(`f(1) = 1`), gives `-1`. -/
theorem C3_cubic_term_dropped :
    ∃ fg', FG_eval ⟨Real.cos, Real.sin, Real.arctan⟩ [0, 0, 0, 1] (Dvector.alloc 61)
        (1 :: List.replicate 77 (0 : ℝ)) = .ok fg'
      ∧ fg'.read (1 + cte_start + 1) = .ok 0
      ∧ entry (1 :: List.replicate 77 (0 : ℝ)) (cte_start + 1)
          - predCte ⟨Real.cos, Real.sin, Real.arctan⟩ (1 :: List.replicate 77 (0 : ℝ)) 1
              (polyEval [0, 0, 0, 1] (entry (1 :: List.replicate 77 (0 : ℝ)) (x_start + (1 - 1))))
          = -1 := by
  have hfg : (Dvector.alloc 61 : Dvector ℝ).size = 1 + n_constraints := rfl
  obtain ⟨_, _, _, _, hcte, _⟩ :=
    fgFinal_read_step ⟨Real.cos, Real.sin, Real.arctan⟩ [0, 0, 0, 1]
      (1 :: List.replicate 77 (0 : ℝ)) hfg (show 1 ≤ 1 by decide) (show 1 < N by decide)
  have e0 : entry (1 :: List.replicate 77 (0 : ℝ)) 0 = 1 := rfl
  have e10 : entry (1 :: List.replicate 77 (0 : ℝ)) 10 = 0 := rfl
  have e30 : entry (1 :: List.replicate 77 (0 : ℝ)) 30 = 0 := rfl
  have e41 : entry (1 :: List.replicate 77 (0 : ℝ)) 41 = 0 := rfl
  have e50 : entry (1 :: List.replicate 77 (0 : ℝ)) 50 = 0 := rfl
  have c0 : entry ([0, 0, 0, 1] : List ℝ) 0 = 0 := rfl
  have c1 : entry ([0, 0, 0, 1] : List ℝ) 1 = 0 := rfl
  have c2 : entry ([0, 0, 0, 1] : List ℝ) 2 = 0 := rfl
  have c3 : entry ([0, 0, 0, 1] : List ℝ) 3 = 1 := rfl
  refine ⟨_, FG_eval_ok rfl (by decide) hfg, ?_, ?_⟩
  · rw [hcte]
    simp only [resCte, line_cte, line_f0, cte_start, v_start, psi_start, y_start, x_start,
      epsi_start, N, Nat.reduceAdd, Nat.reduceSub, e0, e10, e30, e41, e50, c0, c1, c2]
    norm_num
  · simp only [predCte, polyEval, cte_start, v_start, psi_start, y_start, x_start,
      epsi_start, N, Nat.reduceAdd, Nat.reduceSub, e0, e10, e30, e41, e50, c0, c1, c2, c3,
      List.length_cons, List.length_nil, Finset.sum_range_succ, Finset.sum_range_zero]
    norm_num

theorem entry_set_ne (l : List α) {i j : Nat} (x : α) (h : i ≠ j) :
    entry (l.set i x) j = entry l j := by
  simp [entry, List.getD_eq_getElem?_getD, List.getElem?_set_ne h]

theorem resEpsi_eq_code (tr : Trig α) (coeffs vars : List α) {t : Nat} (h1 : 1 ≤ t) :
    resEpsi tr coeffs vars t = entry vars (epsi_start + t)
      - predEpsi vars t
          (tr.atan (entry coeffs 1 + 2 * entry coeffs 2 * entry vars (x_start + (t - 1))))
          (entry vars (delta_start + actuatorStep t)) := by
  simp only [resEpsi, line_epsi, line_psides0, predEpsi, dt, Lf, Nat.add_sub_assoc h1,
    usedDelta_eq vars h1, mul_div_assoc]

/-- The psi, v and epsi residuals of step `t >= 2` do not read the actuator pair
of index `t - 1`. -/
theorem res_delay_frame (tr : Trig α) (coeffs vars : List α) {t : Nat} (d a : α)
    (h2 : 2 ≤ t) (ht : t < N) :
    resPsi ((vars.set (delta_start + t - 1) d).set (a_start + t - 1) a) t = resPsi vars t
    ∧ resV ((vars.set (delta_start + t - 1) d).set (a_start + t - 1) a) t = resV vars t
    ∧ resEpsi tr coeffs ((vars.set (delta_start + t - 1) d).set (a_start + t - 1) a) t
        = resEpsi tr coeffs vars t := by
  have h1 : 1 ≤ t := by omega
  have hs : actuatorStep t = t - 2 := by simp [actuatorStep, h2]
  rw [resPsi_eq _ h1, resPsi_eq _ h1, resV_eq _ h1, resV_eq _ h1, resEpsi_eq_code _ _ _ h1,
    resEpsi_eq_code _ _ _ h1]
  simp only [predPsi, predV, predEpsi, hs, a_start, delta_start, epsi_start, cte_start,
    v_start, psi_start, y_start, x_start, N] at *
  refine ⟨?_, ?_, ?_⟩ <;> simp (disch := omega) only [entry_set_ne]

/-- C4: for every step `2 <= t < N` the psi, v and epsi residuals of step `t` are
computed from the actuator entries two steps back, `vars[delta_start+t-2]` and
`vars[a_start+t-2]`, and they keep their value when `vars[delta_start+t-1]` and
`vars[a_start+t-1]` are replaced by any `d` and `a`; for `t = 1` they are
computed from `vars[delta_start]` and `vars[a_start]`. -/
theorem C4_actuation_delay (tr : Trig α) (coeffs vars : List α) (fg : Dvector α) (t : Nat)
    (d a : α) (hv : vars.length = 6 * N + 2 * (N - 1)) (hc : 3 ≤ coeffs.length)
    (hfg : fg.size = 1 + 6 * N) (h1 : 1 ≤ t) (ht : t < N) :
    ∃ fg', FG_eval tr coeffs fg vars = .ok fg'
      ∧ (2 ≤ t →
          fg'.read (1 + psi_start + t) = .ok (entry vars (psi_start + t)
            - predPsi vars t (entry vars (delta_start + t - 2)))
          ∧ fg'.read (1 + v_start + t) = .ok (entry vars (v_start + t)
            - predV vars t (entry vars (a_start + t - 2)))
          ∧ fg'.read (1 + epsi_start + t) = .ok (entry vars (epsi_start + t)
            - predEpsi vars t
                (tr.atan (entry coeffs 1 + 2 * entry coeffs 2 * entry vars (x_start + (t - 1))))
                (entry vars (delta_start + t - 2)))
          ∧ ∃ fg'', FG_eval tr coeffs fg
                ((vars.set (delta_start + t - 1) d).set (a_start + t - 1) a) = .ok fg''
              ∧ fg''.read (1 + psi_start + t) = fg'.read (1 + psi_start + t)
              ∧ fg''.read (1 + v_start + t) = fg'.read (1 + v_start + t)
              ∧ fg''.read (1 + epsi_start + t) = fg'.read (1 + epsi_start + t))
      ∧ (t = 1 →
          fg'.read (1 + psi_start + t) = .ok (entry vars (psi_start + t)
            - predPsi vars t (entry vars delta_start))
          ∧ fg'.read (1 + v_start + t) = .ok (entry vars (v_start + t)
            - predV vars t (entry vars a_start))
          ∧ fg'.read (1 + epsi_start + t) = .ok (entry vars (epsi_start + t)
            - predEpsi vars t
                (tr.atan (entry coeffs 1 + 2 * entry coeffs 2 * entry vars (x_start + (t - 1))))
                (entry vars delta_start))) := by
  obtain ⟨_, _, hpsi, hvv, _, hepsi⟩ :=
    fgFinal_read_step tr coeffs vars hfg h1 ht
  refine ⟨fgFinal tr coeffs fg vars, FG_eval_ok hv hc hfg, fun h2 => ?_, fun h => ?_⟩
  · have hs : actuatorStep t = t - 2 := by simp [actuatorStep, h2]
    have hd : delta_start + t - 2 = delta_start + actuatorStep t := by rw [hs]; omega
    have ha : a_start + t - 2 = a_start + actuatorStep t := by rw [hs]; omega
    have hv' : ((vars.set (delta_start + t - 1) d).set (a_start + t - 1) a).length
        = n_vars := by simpa using hv
    obtain ⟨_, _, hpsi', hvv', _, hepsi'⟩ :=
      fgFinal_read_step tr coeffs
        ((vars.set (delta_start + t - 1) d).set (a_start + t - 1) a) hfg h1 ht
    obtain ⟨f1, f2, f3⟩ := res_delay_frame tr coeffs vars d a h2 ht
    rw [f1] at hpsi'
    rw [f2] at hvv'
    rw [f3] at hepsi'
    refine ⟨?_, ?_, ?_, fgFinal tr coeffs fg _, FG_eval_ok hv' hc hfg, ?_, ?_, ?_⟩
    · rw [hpsi, resPsi_eq vars h1, hd]
    · rw [hvv, resV_eq vars h1, ha]
    · rw [hepsi, resEpsi_eq_code tr coeffs vars h1, hd]
    · rw [hpsi', hpsi]
    · rw [hvv', hvv]
    · rw [hepsi', hepsi]
  · have hs : actuatorStep t = 0 := by simp [actuatorStep, h]
    refine ⟨?_, ?_, ?_⟩
    · rw [hpsi, resPsi_eq vars h1, hs, Nat.add_zero]
    · rw [hvv, resV_eq vars h1, hs, Nat.add_zero]
    · rw [hepsi, resEpsi_eq_code tr coeffs vars h1, hs, Nat.add_zero]

/-- Witness of C4: step 2 of the zero decision vector, with the pair of index 1
replaced by `(1, 1)`. -/
theorem C4_actuation_delay_witness :
    (List.replicate 78 (0 : ℝ)).length = 6 * N + 2 * (N - 1)
    ∧ 3 ≤ ([0, 0, 0] : List ℝ).length
    ∧ (Dvector.alloc 61 : Dvector ℝ).size = 1 + 6 * N ∧ 1 ≤ 2 ∧ 2 < N
    ∧ ∃ fg', FG_eval ⟨Real.cos, Real.sin, Real.arctan⟩ [0, 0, 0] (Dvector.alloc 61)
          (List.replicate 78 (0 : ℝ)) = .ok fg'
        ∧ ∃ fg'', FG_eval ⟨Real.cos, Real.sin, Real.arctan⟩ [0, 0, 0] (Dvector.alloc 61)
              (((List.replicate 78 (0 : ℝ)).set (delta_start + 2 - 1) 1).set
                (a_start + 2 - 1) 1) = .ok fg''
            ∧ fg''.read (1 + psi_start + 2) = fg'.read (1 + psi_start + 2) :=
  ⟨by rfl, by decide, by rfl, by decide, by decide,
    (C4_actuation_delay ⟨Real.cos, Real.sin, Real.arctan⟩ [0, 0, 0] (List.replicate 78 (0 : ℝ))
      (Dvector.alloc 61) 2 1 1 (by rfl) (by decide) (by rfl) (by decide) (by decide)).imp
      fun _ h => ⟨h.1, (h.2.1 (by decide)).2.2.2.imp fun _ h' => ⟨h'.1, h'.2.1⟩⟩⟩

end FGClaims

/-! ## The vectors built by `MPC::Solve` -/

section FillFacts

variable {α : Type}

@[simp] theorem fill_size (c : α) (n : Nat) :
    ∀ (lo : Nat) (v : Dvector α), (fill c lo n v).size = v.size := by
  induction n with
  | zero => intro lo v; rfl
  | succ n ih => intro lo v; rw [fill, ih, Dvector.size_put]

theorem fill_log (c : α) (n : Nat) :
    ∀ (lo : Nat) (v : Dvector α), (fill c lo n v).log = v.log ++ List.range' lo n := by
  induction n with
  | zero => intro lo v; simp [fill]
  | succ n ih => intro lo v; rw [fill, ih]; simp [Dvector.put, List.range'_succ]

theorem fill_read (c : α) (j : Nat) (n : Nat) :
    ∀ (lo : Nat) (v : Dvector α), lo + n ≤ v.size →
      (fill c lo n v).read j = if lo ≤ j ∧ j < lo + n then .ok c else v.read j := by
  induction n with
  | zero =>
    intro lo v _
    have : ¬ (lo ≤ j ∧ j < lo + 0) := by omega
    rw [if_neg this]; rfl
  | succ n ih =>
    intro lo v h
    rw [fill, ih (lo + 1) _ (by rw [Dvector.size_put]; omega),
      Dvector.read_put c j (show lo < v.size by omega)]
    by_cases h1 : lo = j
    · subst h1
      have a1 : ¬ (lo + 1 ≤ lo ∧ lo < lo + 1 + n) := by omega
      have a2 : lo ≤ lo ∧ lo < lo + (n + 1) := by omega
      rw [if_neg a1, if_pos rfl, if_pos a2]
    · by_cases h2 : lo + 1 ≤ j ∧ j < lo + 1 + n
      · have a2 : lo ≤ j ∧ j < lo + (n + 1) := by omega
        rw [if_pos h2, if_pos a2]
      · have a2 : ¬ (lo ≤ j ∧ j < lo + (n + 1)) := by omega
        rw [if_neg h2, if_neg h1, if_neg a2]

theorem forLoop_fillBody (c : α) (n : Nat) :
    ∀ (lo : Nat) (v : Dvector α), lo + n ≤ v.size →
      forLoop (fillBody c) lo n v = .ok (fill c lo n v) := by
  induction n with
  | zero => intro lo v _; rfl
  | succ n ih =>
    intro lo v h
    rw [forLoop_succ, fillBody, Dvector.write_ok c (show lo < v.size by omega), ok_bind,
      ih (lo + 1) _ (by rw [Dvector.size_put]; omega), fill]

theorem forLoop_boundBody (l h : α) (n : Nat) :
    ∀ (lo : Nat) (b : Dvector α × Dvector α), lo + n ≤ b.1.size → lo + n ≤ b.2.size →
      forLoop (boundBody l h) lo n b = .ok (fill l lo n b.1, fill h lo n b.2) := by
  induction n with
  | zero => intro lo b _ _; rfl
  | succ n ih =>
    intro lo b h1 h2
    rw [forLoop_succ, boundBody, Dvector.write_ok l (show lo < b.1.size by omega), ok_bind,
      Dvector.write_ok h (show lo < b.2.size by omega), ok_bind, pure_eq_ok, ok_bind,
      ih (lo + 1) _ (by simp only [Dvector.size_put]; omega)
        (by simp only [Dvector.size_put]; omega), fill, fill]

theorem pinBoth_ok {i : Nat} (x : α) {b : Dvector α × Dvector α} (h1 : i < b.1.size)
    (h2 : i < b.2.size) : pinBoth i x b = .ok (b.1.put i x, b.2.put i x) := by
  rw [pinBoth, Dvector.write_ok x h2, ok_bind, Dvector.write_ok x h1, ok_bind, pure_eq_ok]

@[simp] theorem Dvector.size_alloc (n : Nat) : (Dvector.alloc n : Dvector α).size = n := by
  simp [Dvector.alloc, Dvector.size]

theorem Dvector.read_alloc (n j : Nat) :
    (Dvector.alloc n : Dvector α).read j
      = .error (if j < n then Fault.unassigned else Fault.out_of_range) := by
  by_cases h : j < n <;> simp [Dvector.alloc, Dvector.read, List.getElem?_replicate, h]

end FillFacts

section SolveFacts

variable {α : Type} [LinearOrderedField α]

theorem Solve_setup_ok {state : List α} (hs : 6 ≤ state.length) :
    Solve_setup state = .ok (setupFinal state) := by
  simp only [Solve_setup, setupFinal, forRange, n_vars, n_constraints, a_start, delta_start,
    epsi_start, cte_start, v_start, psi_start, y_start, x_start, N, Nat.reduceAdd,
    Nat.reduceSub, Nat.reduceMul]
  simp (disch :=
      first | omega | (simp only [Dvector.size_put, fill_size, Dvector.size_alloc]; omega)) only
    [rd_entry, Dvector.write_ok, ok_bind, pure_eq_ok, forLoop_fillBody, forLoop_boundBody,
      pinBoth_ok]

theorem setupFinal_lower_read (state : List α) {i : Nat} (hi : i < n_vars) :
    (setupFinal state).vars_lowerbound.read i
      = .ok (if i < delta_start then -1e10 else if i < a_start then -0.436332 else -1) := by
  simp only [setupFinal, n_vars, a_start, delta_start, epsi_start, cte_start, v_start,
    psi_start, y_start, x_start, N, Nat.reduceAdd, Nat.reduceSub, Nat.reduceMul] at *
  rw [fill_read _ _ _ _ _ (by simp), fill_read _ _ _ _ _ (by simp),
    fill_read _ _ _ _ _ (by simp)]
  by_cases h1 : i < 60
  · rw [if_pos (by omega), if_pos h1]
  · by_cases h2 : i < 69
    · rw [if_neg (by omega), if_neg (by omega), if_pos (by omega), if_neg h1, if_pos h2]
    · rw [if_neg (by omega), if_pos (by omega), if_neg h1, if_neg h2]
      norm_num

theorem setupFinal_upper_read (state : List α) {i : Nat} (hi : i < n_vars) :
    (setupFinal state).vars_upperbound.read i
      = .ok (if i < delta_start then 1e10 else if i < a_start then 0.436332 else 1) := by
  simp only [setupFinal, n_vars, a_start, delta_start, epsi_start, cte_start, v_start,
    psi_start, y_start, x_start, N, Nat.reduceAdd, Nat.reduceSub, Nat.reduceMul] at *
  rw [fill_read _ _ _ _ _ (by simp), fill_read _ _ _ _ _ (by simp),
    fill_read _ _ _ _ _ (by simp)]
  by_cases h1 : i < 60
  · rw [if_pos (by omega), if_pos h1]
  · by_cases h2 : i < 69
    · rw [if_neg (by omega), if_neg (by omega), if_pos (by omega), if_neg h1, if_pos h2]
    · rw [if_neg (by omega), if_pos (by omega), if_neg h1, if_neg h2]
      norm_num

theorem setupFinal_bounds_log (state : List α) :
    (setupFinal state).vars_lowerbound.log
        = List.range' delta_start (a_start - delta_start)
          ++ List.range' a_start (n_vars - a_start) ++ List.range' 0 delta_start
    ∧ (setupFinal state).vars_upperbound.log
        = List.range' delta_start (a_start - delta_start)
          ++ List.range' a_start (n_vars - a_start) ++ List.range' 0 delta_start := by
  simp [setupFinal, fill_log, Dvector.alloc]

theorem bounds_log_count {i : Nat} (hi : i < n_vars) :
    (List.range' delta_start (a_start - delta_start)
      ++ List.range' a_start (n_vars - a_start) ++ List.range' 0 delta_start).count i = 1 := by
  revert i
  decide

theorem setupFinal_constraint_read (state : List α) {i : Nat} (hi : i < n_constraints) :
    (setupFinal state).constraints_lowerbound.read i = .ok (pinnedBound state i)
    ∧ (setupFinal state).constraints_upperbound.read i = .ok (pinnedBound state i) := by
  simp only [setupFinal, pinnedBound, n_constraints, epsi_start, cte_start, v_start,
    psi_start, y_start, x_start, N, Nat.reduceAdd, Nat.reduceMul] at *
  simp (disch :=
      first | omega | (simp only [Dvector.size_put, fill_size, Dvector.size_alloc]; omega)) only
    [Dvector.read_put, fill_read]
  have h0 : (0 ≤ i ∧ i < 0 + 60) := by omega
  simp only [h0, and_self, if_true, eq_comm (a := i)]
  split_ifs <;> first | rfl | omega

theorem constraintHolds_pinned {gl gu fg : Dvector α} {i : Nat} {s g : α}
    (hl : gl.read i = .ok s) (hu : gu.read i = .ok s) (hg : fg.read (1 + i) = .ok g) :
    constraintHolds gl gu fg i ↔ g = s := by
  constructor
  · rintro ⟨l, u, g', h1, h2, h3, h4, h5⟩
    rw [hl] at h1
    rw [hu] at h2
    rw [hg] at h3
    cases h1
    cases h2
    cases h3
    exact le_antisymm h5 h4
  · intro h
    exact ⟨s, s, g, hl, hu, hg, by rw [h], by rw [h]⟩

/-- C5: for every state passed to `Solve`, the constraint lower and upper bounds
that `Solve` builds are both the measured value at the six `t = 0` indices and
both `0` at every other of the `6N` indices; for every decision vector the
`t = 0` constraint values of `FG_eval` are the `t = 0` entries of `vars`; so the
six `t = 0` constraints hold exactly when these entries equal the measured
state. -/
theorem C5_initial_state_pinned (tr : Trig α) (state coeffs vars : List α) (fg : Dvector α)
    (hs : 6 ≤ state.length) (hv : vars.length = 6 * N + 2 * (N - 1))
    (hc : 3 ≤ coeffs.length) (hfg : fg.size = 1 + 6 * N) :
    ∃ p fg', Solve_setup state = .ok p ∧ FG_eval tr coeffs fg vars = .ok fg'
      ∧ (∀ i, i < 6 * N →
          p.constraints_lowerbound.read i = .ok (pinnedBound state i)
          ∧ p.constraints_upperbound.read i = .ok (pinnedBound state i))
      ∧ fg'.read (1 + x_start) = .ok (entry vars x_start)
      ∧ fg'.read (1 + y_start) = .ok (entry vars y_start)
      ∧ fg'.read (1 + psi_start) = .ok (entry vars psi_start)
      ∧ fg'.read (1 + v_start) = .ok (entry vars v_start)
      ∧ fg'.read (1 + cte_start) = .ok (entry vars cte_start)
      ∧ fg'.read (1 + epsi_start) = .ok (entry vars epsi_start)
      ∧ ((constraintHolds p.constraints_lowerbound p.constraints_upperbound fg' x_start
            ∧ constraintHolds p.constraints_lowerbound p.constraints_upperbound fg' y_start
            ∧ constraintHolds p.constraints_lowerbound p.constraints_upperbound fg' psi_start
            ∧ constraintHolds p.constraints_lowerbound p.constraints_upperbound fg' v_start
            ∧ constraintHolds p.constraints_lowerbound p.constraints_upperbound fg' cte_start
            ∧ constraintHolds p.constraints_lowerbound p.constraints_upperbound fg' epsi_start)
          ↔ (entry vars x_start = entry state 0 ∧ entry vars y_start = entry state 1
            ∧ entry vars psi_start = entry state 2 ∧ entry vars v_start = entry state 3
            ∧ entry vars cte_start = entry state 4 ∧ entry vars epsi_start = entry state 5)) := by
  obtain ⟨g0, g1, g2, g3, g4, g5⟩ :=
    fgFinal_read_init tr coeffs vars hfg
  have hb := fun i (hi : i < n_constraints) => setupFinal_constraint_read state hi
  have b0 := hb x_start (by decide)
  have b1 := hb y_start (by decide)
  have b2 := hb psi_start (by decide)
  have b3 := hb v_start (by decide)
  have b4 := hb cte_start (by decide)
  have b5 := hb epsi_start (by decide)
  refine ⟨setupFinal state, fgFinal tr coeffs fg vars, Solve_setup_ok hs, FG_eval_ok hv hc hfg,
    hb, g0, g1, g2, g3, g4, g5, ?_⟩
  rw [constraintHolds_pinned b0.1 b0.2 g0, constraintHolds_pinned b1.1 b1.2 g1,
    constraintHolds_pinned b2.1 b2.2 g2, constraintHolds_pinned b3.1 b3.2 g3,
    constraintHolds_pinned b4.1 b4.2 g4, constraintHolds_pinned b5.1 b5.2 g5]
  simp [pinnedBound, epsi_start, cte_start, v_start, psi_start, y_start, x_start, N]

/-- C6: for every index `i < n_vars` the variable bounds built by `Solve` are
`[-1e10, 1e10]` when `i < delta_start`, `[-0.436332, 0.436332]` when
`delta_start <= i < a_start` and `[-1, 1]` when `a_start <= i`, and each of the
two bound vectors is assigned exactly once at `i`. -/
theorem C6_variable_bounds (state : List α) (i : Nat) (hs : 6 ≤ state.length)
    (hi : i < 6 * N + 2 * (N - 1)) :
    ∃ p, Solve_setup state = .ok p
      ∧ p.vars_lowerbound.size = 6 * N + 2 * (N - 1)
      ∧ p.vars_upperbound.size = 6 * N + 2 * (N - 1)
      ∧ (i < delta_start →
          p.vars_lowerbound.read i = .ok (-1e10) ∧ p.vars_upperbound.read i = .ok 1e10)
      ∧ (delta_start ≤ i → i < a_start →
          p.vars_lowerbound.read i = .ok (-0.436332)
          ∧ p.vars_upperbound.read i = .ok 0.436332)
      ∧ (a_start ≤ i →
          p.vars_lowerbound.read i = .ok (-1) ∧ p.vars_upperbound.read i = .ok 1)
      ∧ p.vars_lowerbound.log.count i = 1
      ∧ p.vars_upperbound.log.count i = 1 := by
  have hl := setupFinal_lower_read state hi
  have hu := setupFinal_upper_read state hi
  have hlog := setupFinal_bounds_log state
  refine ⟨setupFinal state, Solve_setup_ok hs, by simp [setupFinal, n_vars],
    by simp [setupFinal, n_vars], fun h => ?_, fun h1 h2 => ?_, fun h => ?_, ?_, ?_⟩
  · rw [hl, hu]; simp only [if_pos h, and_self]
  · have hn : ¬ i < delta_start := by omega
    rw [hl, hu]; simp only [if_neg hn, if_pos h2, and_self]
  · have h1 : ¬ i < delta_start := by
      simp only [a_start, delta_start, epsi_start, cte_start, v_start, psi_start, y_start,
        x_start, N] at *
      omega
    have h2 : ¬ i < a_start := by omega
    rw [hl, hu]; simp only [if_neg h1, if_neg h2, and_self]
  · rw [hlog.1]; exact bounds_log_count hi
  · rw [hlog.2]; exact bounds_log_count hi

/-- Witness of C5: the state `(1, 2, 3, 4, 5, 6)`. -/
theorem C5_initial_state_pinned_witness :
    6 ≤ ([1, 2, 3, 4, 5, 6] : List ℝ).length
    ∧ (List.replicate 78 (0 : ℝ)).length = 6 * N + 2 * (N - 1)
    ∧ 3 ≤ ([0, 0, 0] : List ℝ).length
    ∧ (Dvector.alloc 61 : Dvector ℝ).size = 1 + 6 * N
    ∧ ∃ p fg', Solve_setup ([1, 2, 3, 4, 5, 6] : List ℝ) = .ok p
        ∧ FG_eval ⟨Real.cos, Real.sin, Real.arctan⟩ [0, 0, 0] (Dvector.alloc 61)
            (List.replicate 78 (0 : ℝ)) = .ok fg'
        ∧ p.constraints_lowerbound.read y_start
            = .ok (pinnedBound ([1, 2, 3, 4, 5, 6] : List ℝ) y_start) :=
  ⟨by decide, by rfl, by decide, by rfl,
    (C5_initial_state_pinned ⟨Real.cos, Real.sin, Real.arctan⟩ [1, 2, 3, 4, 5, 6] [0, 0, 0]
      (List.replicate 78 (0 : ℝ)) (Dvector.alloc 61) (by decide) (by rfl) (by decide)
      (by rfl)).imp
      fun _ h => h.imp fun _ h' => ⟨h'.1, h'.2.1, (h'.2.2.1 y_start (by decide)).1⟩⟩

/-- Witness of C6: index 65, in the steering block, for the state `(1, 2, 3, 4, 5, 6)`. -/
theorem C6_variable_bounds_witness :
    6 ≤ ([1, 2, 3, 4, 5, 6] : List ℝ).length ∧ 65 < 6 * N + 2 * (N - 1)
    ∧ ∃ p, Solve_setup ([1, 2, 3, 4, 5, 6] : List ℝ) = .ok p
        ∧ p.vars_lowerbound.read 65 = .ok (-0.436332)
        ∧ p.vars_upperbound.read 65 = .ok 0.436332
        ∧ p.vars_lowerbound.log.count 65 = 1 :=
  ⟨by decide, by decide,
    (C6_variable_bounds ([1, 2, 3, 4, 5, 6] : List ℝ) 65 (by decide) (by decide)).imp
      fun _ h => ⟨h.1, (h.2.2.2.2.1 (by decide) (by decide)).1,
        (h.2.2.2.2.1 (by decide) (by decide)).2, h.2.2.2.2.2.2.1⟩⟩

/-- C7: the eight offsets, in the order x, y, psi, v, cte, epsi, delta, a, start
at 0 and each block starts where the one before it ends (six blocks of length
`N`, two of length `N - 1`), the last one ending at `n_vars = 6N + 2(N-1)`; the
blocks are pairwise disjoint and an index is below `n_vars` exactly when it lies
in one of them. -/
theorem C7_layout :
    x_start = 0 ∧ y_start = x_start + N ∧ psi_start = y_start + N ∧ v_start = psi_start + N
    ∧ cte_start = v_start + N ∧ epsi_start = cte_start + N ∧ delta_start = epsi_start + N
    ∧ a_start = delta_start + (N - 1) ∧ n_vars = a_start + (N - 1)
    ∧ n_vars = 6 * N + 2 * (N - 1)
    ∧ (∀ i, i < n_vars ↔ ∃ b ∈ blocks, b.1 ≤ i ∧ i < b.1 + b.2)
    ∧ blocks.Pairwise (fun b c => ∀ i, ¬ (b.1 ≤ i ∧ i < b.1 + b.2 ∧ c.1 ≤ i ∧ i < c.1 + c.2)) := by
  refine ⟨rfl, rfl, rfl, rfl, rfl, rfl, rfl, rfl, rfl, rfl, fun i => ?_, ?_⟩
  · simp only [blocks, n_vars, a_start, delta_start, epsi_start, cte_start, v_start, psi_start,
      y_start, x_start, N, List.mem_cons, List.mem_singleton, exists_eq_or_imp,
      List.not_mem_nil, false_and, exists_false, or_false, exists_eq_left]
    omega
  · simp only [blocks, a_start, delta_start, epsi_start, cte_start, v_start, psi_start,
      y_start, x_start, N, List.pairwise_cons, List.mem_cons, List.mem_singleton,
      forall_eq_or_imp, forall_eq, List.not_mem_nil, false_imp_iff, implies_true,
      List.Pairwise.nil, and_true]
    repeat' apply And.intro
    all_goals intro i; omega

theorem forLoop_waypointBody (x : List α) (n : Nat) :
    ∀ (lo : Nat) (r : List α), y_start + lo + n < x.length →
      forLoop (waypointBody x) lo n r = .ok (r ++ waypoints x lo n) := by
  induction n with
  | zero => intro lo r _; simp [forLoop_zero, waypoints]
  | succ n ih =>
    intro lo r h
    have hy : y_start + lo + 1 < x.length := by omega
    have hx : x_start + lo + 1 < x.length := by
      simp only [y_start, x_start] at *; omega
    rw [forLoop_succ, waypointBody, rd_entry hx, ok_bind, rd_entry hy, ok_bind, pure_eq_ok,
      ok_bind, ih (lo + 1) _ (by omega), waypoints]
    simp

theorem waypoints_length (x : List α) (n : Nat) :
    ∀ lo, (waypoints x lo n).length = 2 * n := by
  induction n with
  | zero => intro lo; rfl
  | succ n ih => intro lo; simp only [waypoints, List.length_cons, ih]; omega

theorem waypoints_get (x : List α) (n : Nat) :
    ∀ lo i, i < n →
      (waypoints x lo n)[2 * i]? = some (entry x (x_start + (lo + i) + 1))
      ∧ (waypoints x lo n)[2 * i + 1]? = some (entry x (y_start + (lo + i) + 1)) := by
  induction n with
  | zero => intro lo i h; omega
  | succ n ih =>
    intro lo i h
    cases i with
    | zero => simp [waypoints]
    | succ i =>
      have e1 : 2 * (i + 1) = (2 * i) + 1 + 1 := by omega
      have e3 : lo + (i + 1) = lo + 1 + i := by omega
      obtain ⟨h1, h2⟩ := ih (lo + 1) i (by omega)
      rw [e1, e3, waypoints, List.getElem?_cons_succ, List.getElem?_cons_succ,
        List.getElem?_cons_succ, List.getElem?_cons_succ]
      exact ⟨h1, h2⟩

theorem Solve_result_ok {x : List α} (hx : x.length = n_vars) :
    Solve_result x = .ok (resultFinal x) := by
  have h1 : delta_start < x.length := by rw [hx]; decide
  have h2 : a_start < x.length := by rw [hx]; decide
  rw [Solve_result, rd_entry h1, ok_bind, rd_entry h2, ok_bind, forRange,
    forLoop_waypointBody x _ _ _ (by rw [hx]; decide)]
  rfl

theorem Solve_eq (tr : Trig α) (solve : Solver α) {state : List α} (coeffs : List α)
    (hs : 6 ≤ state.length) :
    Solve tr solve state coeffs
      = Solve_result (Solve_call tr solve coeffs (setupFinal state)).x := by
  rw [Solve, Solve_setup_ok hs, ok_bind]

/-- C8: whenever the solver returns a vector `s` of length `n_vars`, `Solve`
returns a list of length `2 + 2(N-1) = 2N` whose element 0 is `s[delta_start]`,
whose element 1 is `s[a_start]`, and whose elements `2+2i`, `3+2i` are
`s[x_start+i+1]`, `s[y_start+i+1]` for every `i < N-1`: the positions of
timesteps `1 .. N-1` in increasing order, without the position of `t = 0`. -/
theorem C8_result_extraction (tr : Trig α) (solve : Solver α) (state coeffs : List α)
    (hs : 6 ≤ state.length) :
    ∃ p, Solve_setup state = .ok p
      ∧ ((Solve_call tr solve coeffs p).x.length = 6 * N + 2 * (N - 1) →
          ∃ r, Solve tr solve state coeffs = .ok r
            ∧ r.length = 2 + 2 * (N - 1) ∧ r.length = 2 * N
            ∧ r[0]? = some (entry (Solve_call tr solve coeffs p).x delta_start)
            ∧ r[1]? = some (entry (Solve_call tr solve coeffs p).x a_start)
            ∧ ∀ i, i < N - 1 →
                r[2 + 2 * i]? = some (entry (Solve_call tr solve coeffs p).x (x_start + i + 1))
                ∧ r[3 + 2 * i]?
                    = some (entry (Solve_call tr solve coeffs p).x (y_start + i + 1))) := by
  refine ⟨setupFinal state, Solve_setup_ok hs, fun hx => ?_⟩
  refine ⟨resultFinal _, by rw [Solve_eq tr solve coeffs hs, Solve_result_ok hx], ?_, ?_,
    rfl, rfl, fun i hi => ?_⟩
  · simp [resultFinal, waypoints_length, N]
  · simp [resultFinal, waypoints_length, N]
  · obtain ⟨h1, h2⟩ := waypoints_get (Solve_call tr solve coeffs (setupFinal state)).x
      (N - 1) 0 i hi
    have e1 : 2 + 2 * i = (2 * i) + 1 + 1 := by omega
    have e2 : 3 + 2 * i = (2 * i + 1) + 1 + 1 := by omega
    rw [Nat.zero_add] at h1 h2
    rw [e1, e2, resultFinal, List.getElem?_cons_succ, List.getElem?_cons_succ,
      List.getElem?_cons_succ, List.getElem?_cons_succ]
    exact ⟨h1, h2⟩

/-- Witness of C8: a solver that returns `s = (0, 1, ..., 77)`. -/
theorem C8_result_extraction_witness :
    6 ≤ ([1, 2, 3, 4, 5, 6] : List ℝ).length
    ∧ ∃ r, Solve ⟨Real.cos, Real.sin, Real.arctan⟩
          (fun _ _ _ _ _ _ _ => ⟨Status.success, (List.range 78).map fun n => (n : ℝ)⟩)
          [1, 2, 3, 4, 5, 6] [0, 0, 0] = .ok r
        ∧ r.length = 2 * N
        ∧ r[0]? = some (entry ((List.range 78).map fun n => (n : ℝ)) delta_start) :=
  ⟨by decide, by
    obtain ⟨_, _, h⟩ := C8_result_extraction ⟨Real.cos, Real.sin, Real.arctan⟩
      (fun _ _ _ _ _ _ _ => ⟨Status.success, (List.range 78).map fun n => (n : ℝ)⟩)
      [1, 2, 3, 4, 5, 6] [0, 0, 0] (by decide)
    obtain ⟨r, hr, _, hl, h0, _⟩ := h (by rfl)
    exact ⟨r, hr, hl, h0⟩⟩

/-- C9, the code at a failing input: with the state `(0, 0, 0, 0, 0, 0)`, the
path `0` and a solver that reports `time_limit_exceeded` with the iterate
`(1/4, ..., 1/4)`, `Solve` returns the commands `1/4`, `1/4` and the waypoints
of that iterate, exactly the value it returns when the solver reports
`success` with the same vector: nothing in what `Solve` returns tells the
failed solve from the successful one. -/
theorem C9_failed_solve_returns_command :
    Solve ⟨Real.cos, Real.sin, Real.arctan⟩
        (fun _ _ _ _ _ _ _ => ⟨Status.time_limit_exceeded, List.replicate 78 (1 / 4 : ℝ)⟩)
        [0, 0, 0, 0, 0, 0] [0, 0, 0] = .ok (List.replicate 20 (1 / 4 : ℝ))
    ∧ Solve ⟨Real.cos, Real.sin, Real.arctan⟩
        (fun _ _ _ _ _ _ _ => ⟨Status.success, List.replicate 78 (1 / 4 : ℝ)⟩)
        [0, 0, 0, 0, 0, 0] [0, 0, 0] = .ok (List.replicate 20 (1 / 4 : ℝ)) := by
  constructor <;>
  · rw [Solve_eq _ _ _ (by decide)]
    simp only [Solve_call]
    rw [Solve_result_ok (by rfl)]
    rfl

/-- C10 fails as stated: with a solver that reports `failure` and returns the
vector `(2, ..., 2)`, `Solve` returns the steering command `2` and the throttle
command `2`, outside `[-0.436332, 0.436332]` and `[-1, 1]`. -/
theorem C10_unclamped_command :
    ∃ r, Solve ⟨Real.cos, Real.sin, Real.arctan⟩
        (fun _ _ _ _ _ _ _ => ⟨Status.failure, List.replicate 78 (2 : ℝ)⟩)
        [0, 0, 0, 0, 0, 0] [0, 0, 0] = .ok r
      ∧ r[0]? = some 2 ∧ r[1]? = some 2
      ∧ ¬ ((2 : ℝ) ≤ 0.436332) ∧ ¬ ((2 : ℝ) ≤ 1) := by
  refine ⟨List.replicate 20 2, ?_, rfl, rfl, by norm_num, by norm_num⟩
  rw [Solve_eq _ _ _ (by decide)]
  simp only [Solve_call]
  rw [Solve_result_ok (by rfl)]
  rfl

/-- C10, as amended: whenever the vector returned by the solver has length
`n_vars` and respects the variable bounds that `Solve` gave to the solver, the
steering command (element 0 of the result) lies in `[-0.436332, 0.436332]` and
the throttle command (element 1) lies in `[-1, 1]`, whatever status the solver
reports. -/
theorem C10_commands_within_bounds (tr : Trig α) (solve : Solver α) (state coeffs : List α)
    (hs : 6 ≤ state.length) :
    ∃ p, Solve_setup state = .ok p
      ∧ ((Solve_call tr solve coeffs p).x.length = 6 * N + 2 * (N - 1) →
          respectsBounds p.vars_lowerbound p.vars_upperbound (Solve_call tr solve coeffs p).x →
          ∃ (r : List α) (steer throttle : α), Solve tr solve state coeffs = .ok r
            ∧ r[0]? = some steer ∧ r[1]? = some throttle
            ∧ -0.436332 ≤ steer ∧ steer ≤ 0.436332 ∧ -1 ≤ throttle ∧ throttle ≤ 1) := by
  refine ⟨setupFinal state, Solve_setup_ok hs, fun hx hb => ?_⟩
  refine ⟨resultFinal _, _, _, by rw [Solve_eq tr solve coeffs hs, Solve_result_ok hx],
    rfl, rfl, ?_⟩
  have hd : delta_start < n_vars := by decide
  have ha : a_start < n_vars := by decide
  obtain ⟨l1, u1, hl1, hu1, b1, b2⟩ := hb delta_start (by rw [hx]; exact hd)
  obtain ⟨l2, u2, hl2, hu2, b3, b4⟩ := hb a_start (by rw [hx]; exact ha)
  rw [setupFinal_lower_read state hd] at hl1
  rw [setupFinal_upper_read state hd] at hu1
  rw [setupFinal_lower_read state ha] at hl2
  rw [setupFinal_upper_read state ha] at hu2
  rw [if_neg (by decide), if_pos (by decide)] at hl1 hu1
  rw [if_neg (by decide), if_neg (by decide)] at hl2 hu2
  cases hl1
  cases hu1
  cases hl2
  cases hu2
  exact ⟨b1, b2, b3, b4⟩

theorem entry_replicate (n : Nat) (c : α) {i : Nat} (hi : i < n) :
    entry (List.replicate n c) i = c := by
  simp [entry, List.getD_eq_getElem?_getD, List.getElem?_replicate, hi]

/-- Witness of C10 as amended: a solver that reports `time_limit_exceeded` with
the zero vector, which respects the bounds. -/
theorem C10_commands_within_bounds_witness :
    6 ≤ ([1, 2, 3, 4, 5, 6] : List ℝ).length
    ∧ ∃ (r : List ℝ) (steer throttle : ℝ), Solve ⟨Real.cos, Real.sin, Real.arctan⟩
          (fun _ _ _ _ _ _ _ => ⟨Status.time_limit_exceeded, List.replicate 78 (0 : ℝ)⟩)
          [1, 2, 3, 4, 5, 6] [0, 0, 0] = .ok r
        ∧ r[0]? = some steer ∧ r[1]? = some throttle
        ∧ -0.436332 ≤ steer ∧ steer ≤ 0.436332 ∧ -1 ≤ throttle ∧ throttle ≤ 1 :=
  ⟨by decide, by
    obtain ⟨p, hp, h⟩ := C10_commands_within_bounds ⟨Real.cos, Real.sin, Real.arctan⟩
      (fun _ _ _ _ _ _ _ => ⟨Status.time_limit_exceeded, List.replicate 78 (0 : ℝ)⟩)
      [1, 2, 3, 4, 5, 6] [0, 0, 0] (by decide)
    rw [Solve_setup_ok (by decide)] at hp
    cases hp
    refine h (by rfl) fun i hi => ?_
    have hi' : i < n_vars := by simpa [Solve_call] using hi
    refine ⟨_, _, setupFinal_lower_read _ hi', setupFinal_upper_read _ hi', ?_, ?_⟩
    · have : entry (Solve_call ⟨Real.cos, Real.sin, Real.arctan⟩
          (fun _ _ _ _ _ _ _ => ⟨Status.time_limit_exceeded, List.replicate 78 (0 : ℝ)⟩)
          [0, 0, 0] (setupFinal [1, 2, 3, 4, 5, 6])).x i = 0 := entry_replicate 78 0 hi'
      rw [this]
      split_ifs <;> norm_num
    · have : entry (Solve_call ⟨Real.cos, Real.sin, Real.arctan⟩
          (fun _ _ _ _ _ _ _ => ⟨Status.time_limit_exceeded, List.replicate 78 (0 : ℝ)⟩)
          [0, 0, 0] (setupFinal [1, 2, 3, 4, 5, 6])).x i = 0 := entry_replicate 78 0 hi'
      rw [this]
      split_ifs <;> norm_num⟩

end SolveFacts

/-! ## The sign of the cost

Facts about `cost_spec` in exact arithmetic: a sum of squares with positive
weights. They serve the optimum of the real-valued problem below. -/

section CostSign

variable {α : Type} [LinearOrderedField α]

end CostSign

/-! ## Exact trajectories -/

section Traj

variable {α : Type} [LinearOrderedField α]

theorem actuatorStep_lt {t : Nat} (h1 : 1 ≤ t) (ht : t < N) : actuatorStep t < N - 1 := by
  unfold actuatorStep
  simp only [N] at *
  split <;> omega

/-- On a decision vector without actuation whose state at `t` is the kinematic
update of the state at `t - 1`, the six values written for step `t` are `0`. -/
theorem res_zero_of_exact (tr : Trig α) (coeffs vars : List α) {t : Nat} (h1 : 1 ≤ t)
    (ht : t < N)
    (hdelta : ∀ s, s < N - 1 → entry vars (delta_start + s) = 0)
    (ha : ∀ s, s < N - 1 → entry vars (a_start + s) = 0)
    (hstep : entry vars (x_start + t) = predX tr vars t
      ∧ entry vars (y_start + t) = predY tr vars t
      ∧ entry vars (psi_start + t) = predPsi vars t (entry vars (delta_start + (t - 1)))
      ∧ entry vars (v_start + t) = predV vars t (entry vars (a_start + (t - 1)))
      ∧ entry vars (cte_start + t) = predCte tr vars t
          (entry coeffs 0 + entry coeffs 1 * entry vars (x_start + (t - 1))
            + entry coeffs 2 * entry vars (x_start + (t - 1)) ^ 2)
      ∧ entry vars (epsi_start + t) = predEpsi vars t
          (tr.atan (entry coeffs 1 + 2 * entry coeffs 2 * entry vars (x_start + (t - 1))))
          (entry vars (delta_start + (t - 1)))) :
    resX tr vars t = 0 ∧ resY tr vars t = 0 ∧ resPsi vars t = 0 ∧ resV vars t = 0
    ∧ resCte tr coeffs vars t = 0 ∧ resEpsi tr coeffs vars t = 0 := by
  obtain ⟨sx, sy, spsi, sv, scte, sepsi⟩ := hstep
  have hd1 : entry vars (delta_start + (t - 1)) = 0 := hdelta _ (by simp only [N] at *; omega)
  have ha1 : entry vars (a_start + (t - 1)) = 0 := ha _ (by simp only [N] at *; omega)
  have hd2 : entry vars (delta_start + actuatorStep t) = 0 := hdelta _ (actuatorStep_lt h1 ht)
  have ha2 : entry vars (a_start + actuatorStep t) = 0 := ha _ (actuatorStep_lt h1 ht)
  rw [hd1] at spsi sepsi
  rw [ha1] at sv
  refine ⟨?_, ?_, ?_, ?_, ?_, ?_⟩
  · rw [resX_eq tr vars h1, sx, sub_self]
  · rw [resY_eq tr vars h1, sy, sub_self]
  · rw [resPsi_eq vars h1, hd2, spsi, sub_self]
  · rw [resV_eq vars h1, ha2, sv, sub_self]
  · rw [resCte, line_cte, line_f0, scte, predCte, Nat.add_sub_assoc h1,
      Nat.add_sub_assoc h1, Nat.add_sub_assoc h1, Nat.add_sub_assoc h1]
    simp only [dt, sub_self]
  · rw [resEpsi_eq_code tr coeffs vars h1, hd2, sepsi, sub_self]

/-- C12: for every coefficient vector (of at least three entries) and every
decision vector whose steering and acceleration entries are all `0`, whose
speed entries are all equal, and whose state at each step `1 <= t < N` is the
kinematic update of section 4.1 of the state at `t - 1` (with
`f(x) = c0 + c1 x + c2 x^2`, `psides = atan(c1 + 2 c2 x)`), `FG_eval` returns and
every residual `fg[1 + block_start + t]`, `1 <= t < N`, is `0`. -/
theorem C12_exact_trajectory_residuals_zero (tr : Trig α) (coeffs vars : List α)
    (fg : Dvector α) (hv : vars.length = 6 * N + 2 * (N - 1)) (hc : 3 ≤ coeffs.length)
    (hfg : fg.size = 1 + 6 * N)
    (hdelta : ∀ t, t < N - 1 → entry vars (delta_start + t) = 0)
    (ha : ∀ t, t < N - 1 → entry vars (a_start + t) = 0)
    (_hspeed : ∀ t, t < N → entry vars (v_start + t) = entry vars v_start)
    (hstep : ∀ t, 1 ≤ t → t < N →
      entry vars (x_start + t) = predX tr vars t
      ∧ entry vars (y_start + t) = predY tr vars t
      ∧ entry vars (psi_start + t) = predPsi vars t (entry vars (delta_start + (t - 1)))
      ∧ entry vars (v_start + t) = predV vars t (entry vars (a_start + (t - 1)))
      ∧ entry vars (cte_start + t) = predCte tr vars t
          (entry coeffs 0 + entry coeffs 1 * entry vars (x_start + (t - 1))
            + entry coeffs 2 * entry vars (x_start + (t - 1)) ^ 2)
      ∧ entry vars (epsi_start + t) = predEpsi vars t
          (tr.atan (entry coeffs 1 + 2 * entry coeffs 2 * entry vars (x_start + (t - 1))))
          (entry vars (delta_start + (t - 1)))) :
    ∃ fg', FG_eval tr coeffs fg vars = .ok fg'
      ∧ ∀ t, 1 ≤ t → t < N →
          fg'.read (1 + x_start + t) = .ok 0 ∧ fg'.read (1 + y_start + t) = .ok 0
          ∧ fg'.read (1 + psi_start + t) = .ok 0 ∧ fg'.read (1 + v_start + t) = .ok 0
          ∧ fg'.read (1 + cte_start + t) = .ok 0 ∧ fg'.read (1 + epsi_start + t) = .ok 0 := by
  refine ⟨fgFinal tr coeffs fg vars, FG_eval_ok hv hc hfg, fun t h1 ht => ?_⟩
  obtain ⟨rx, ry, rpsi, rv, rcte, repsi⟩ := fgFinal_read_step tr coeffs vars hfg h1 ht
  obtain ⟨zx, zy, zpsi, zv, zcte, zepsi⟩ :=
    res_zero_of_exact tr coeffs vars h1 ht hdelta ha (hstep t h1 ht)
  rw [zx] at rx
  rw [zy] at ry
  rw [zpsi] at rpsi
  rw [zv] at rv
  rw [zcte] at rcte
  rw [zepsi] at repsi
  exact ⟨rx, ry, rpsi, rv, rcte, repsi⟩

theorem entry_replicate_zero (n i : Nat) : entry (List.replicate n (0 : α)) i = 0 := by
  by_cases h : i < n
  · exact entry_replicate n 0 h
  · simp [entry, List.getD_eq_getElem?_getD, List.getElem?_replicate, h]

end Traj

/-! ## The last actuator pair -/

section Frame

variable {α : Type} [LinearOrderedField α]

/-- No residual of the constraint loop reads the last actuator pair. -/
theorem res_last_frame (tr : Trig α) (coeffs vars : List α) {t : Nat} (d a : α)
    (h1 : 1 ≤ t) (ht : t < N) :
    resX tr ((vars.set (delta_start + N - 2) d).set (a_start + N - 2) a) t = resX tr vars t
    ∧ resY tr ((vars.set (delta_start + N - 2) d).set (a_start + N - 2) a) t = resY tr vars t
    ∧ resPsi ((vars.set (delta_start + N - 2) d).set (a_start + N - 2) a) t = resPsi vars t
    ∧ resV ((vars.set (delta_start + N - 2) d).set (a_start + N - 2) a) t = resV vars t
    ∧ resCte tr coeffs ((vars.set (delta_start + N - 2) d).set (a_start + N - 2) a) t
        = resCte tr coeffs vars t
    ∧ resEpsi tr coeffs ((vars.set (delta_start + N - 2) d).set (a_start + N - 2) a) t
        = resEpsi tr coeffs vars t := by
  simp only [resX, resY, resPsi, resV, resCte, resEpsi, usedDelta, usedA, a_start,
    delta_start, epsi_start, cte_start, v_start, psi_start, y_start, x_start, N] at *
  by_cases h : t > 1
  · simp only [if_pos h]
    refine ⟨?_, ?_, ?_, ?_, ?_, ?_⟩ <;> simp (disch := omega) only [entry_set_ne]
  · simp only [if_neg h]
    refine ⟨?_, ?_, ?_, ?_, ?_, ?_⟩ <;> simp (disch := omega) only [entry_set_ne]

/-- Every constraint slot is one of the six slots of some step `t < N`. -/
theorem slot_cases {j : Nat} (h1 : 1 ≤ j) (h2 : j ≤ 6 * N) :
    ∃ t, t < N ∧ (j = 1 + x_start + t ∨ j = 1 + y_start + t ∨ j = 1 + psi_start + t
      ∨ j = 1 + v_start + t ∨ j = 1 + cte_start + t ∨ j = 1 + epsi_start + t) := by
  refine ⟨(j - 1) % 10, ?_, ?_⟩
  · simp only [N]; omega
  · simp only [epsi_start, cte_start, v_start, psi_start, y_start, x_start, N] at *
    omega

/-- C17: two decision vectors that differ only in `vars[delta_start+N-2]` and
`vars[a_start+N-2]` give the same `6N` constraint values `fg[1..6N]`; and the
first pair `vars[delta_start]`, `vars[a_start]` is the actuator input of step
`t = 1` and of step `t = 2`. -/
theorem C17_last_actuator_pair_free (tr : Trig α) (coeffs vars : List α) (fg : Dvector α)
    (d a : α) (hv : vars.length = 6 * N + 2 * (N - 1)) (hc : 3 ≤ coeffs.length)
    (hfg : fg.size = 1 + 6 * N) :
    ∃ fg' fg'', FG_eval tr coeffs fg vars = .ok fg'
      ∧ FG_eval tr coeffs fg ((vars.set (delta_start + N - 2) d).set (a_start + N - 2) a)
          = .ok fg''
      ∧ (∀ j, 1 ≤ j → j ≤ 6 * N → fg''.read j = fg'.read j)
      ∧ (∀ t, t = 1 ∨ t = 2 →
          fg'.read (1 + psi_start + t) = .ok (entry vars (psi_start + t)
            - predPsi vars t (entry vars delta_start))
          ∧ fg'.read (1 + v_start + t) = .ok (entry vars (v_start + t)
            - predV vars t (entry vars a_start))
          ∧ fg'.read (1 + epsi_start + t) = .ok (entry vars (epsi_start + t)
            - predEpsi vars t
                (tr.atan (entry coeffs 1 + 2 * entry coeffs 2 * entry vars (x_start + (t - 1))))
                (entry vars delta_start))) := by
  have hv' : ((vars.set (delta_start + N - 2) d).set (a_start + N - 2) a).length = n_vars := by
    simpa using hv
  refine ⟨fgFinal tr coeffs fg vars, fgFinal tr coeffs fg _, FG_eval_ok hv hc hfg,
    FG_eval_ok hv' hc hfg, fun j h1 h2 => ?_, fun t ht => ?_⟩
  · obtain ⟨t, ht, hj⟩ := slot_cases h1 h2
    by_cases h0 : t = 0
    · subst h0
      obtain ⟨a0, a1, a2, a3, a4, a5⟩ := fgFinal_read_init tr coeffs vars hfg
      obtain ⟨b0, b1, b2, b3, b4, b5⟩ := fgFinal_read_init tr coeffs
        ((vars.set (delta_start + N - 2) d).set (a_start + N - 2) a) hfg
      have e : ∀ i, i < delta_start →
          entry ((vars.set (delta_start + N - 2) d).set (a_start + N - 2) a) i
            = entry vars i := by
        intro i hi
        simp only [a_start, delta_start, epsi_start, cte_start, v_start, psi_start, y_start,
          x_start, N] at *
        simp (disch := omega) only [entry_set_ne]
      rw [e _ (by decide)] at b0 b1 b2 b3 b4 b5
      rcases hj with h | h | h | h | h | h <;> rw [h, Nat.add_zero]
      · rw [a0, b0]
      · rw [a1, b1]
      · rw [a2, b2]
      · rw [a3, b3]
      · rw [a4, b4]
      · rw [a5, b5]
    · have ht1 : 1 ≤ t := by omega
      obtain ⟨a0, a1, a2, a3, a4, a5⟩ := fgFinal_read_step tr coeffs vars hfg ht1 ht
      obtain ⟨b0, b1, b2, b3, b4, b5⟩ := fgFinal_read_step tr coeffs
        ((vars.set (delta_start + N - 2) d).set (a_start + N - 2) a) hfg ht1 ht
      obtain ⟨f0, f1, f2, f3, f4, f5⟩ := res_last_frame tr coeffs vars d a ht1 ht
      rcases hj with h | h | h | h | h | h <;> rw [h]
      · rw [a0, b0, f0]
      · rw [a1, b1, f1]
      · rw [a2, b2, f2]
      · rw [a3, b3, f3]
      · rw [a4, b4, f4]
      · rw [a5, b5, f5]
  · have h1 : 1 ≤ t := by omega
    have hN : t < N := by simp only [N]; omega
    have hs : actuatorStep t = 0 := by
      rcases ht with h | h <;> subst h <;> rfl
    obtain ⟨_, _, hpsi, hvv, _, hepsi⟩ := fgFinal_read_step tr coeffs vars hfg h1 hN
    refine ⟨?_, ?_, ?_⟩
    · rw [hpsi, resPsi_eq vars h1, hs, Nat.add_zero]
    · rw [hvv, resV_eq vars h1, hs, Nat.add_zero]
    · rw [hepsi, resEpsi_eq_code tr coeffs vars h1, hs, Nat.add_zero]

end Frame

/-- Witness of C17: the zero decision vector with its last actuator pair
replaced by `(1, 1)`. -/
theorem C17_last_actuator_pair_free_witness :
    (List.replicate 78 (0 : ℝ)).length = 6 * N + 2 * (N - 1)
    ∧ 3 ≤ ([0, 0, 0] : List ℝ).length
    ∧ (Dvector.alloc 61 : Dvector ℝ).size = 1 + 6 * N
    ∧ ∃ fg' fg'', FG_eval ⟨Real.cos, Real.sin, Real.arctan⟩ [0, 0, 0] (Dvector.alloc 61)
          (List.replicate 78 (0 : ℝ)) = .ok fg'
        ∧ FG_eval ⟨Real.cos, Real.sin, Real.arctan⟩ [0, 0, 0] (Dvector.alloc 61)
            (((List.replicate 78 (0 : ℝ)).set (delta_start + N - 2) 1).set
              (a_start + N - 2) 1) = .ok fg''
        ∧ ∀ j, 1 ≤ j → j ≤ 6 * N → fg''.read j = fg'.read j :=
  ⟨by rfl, by decide, by rfl,
    (C17_last_actuator_pair_free ⟨Real.cos, Real.sin, Real.arctan⟩ [0, 0, 0]
      (List.replicate 78 (0 : ℝ)) (Dvector.alloc 61) 1 1 (by rfl) (by decide) (by rfl)).imp
      fun _ h => h.imp fun _ h' => ⟨h'.1, h'.2.1, h'.2.2.1⟩⟩

/-! ## The writes of `FG_eval` -/

section Log

variable {α : Type} [LinearOrderedField α]

theorem kinPuts_log (tr : Trig α) (coeffs vars : List α) (t : Nat) (fg : Dvector α) :
    (kinPuts tr coeffs vars t fg).log = fg.log ++ stepSlots t := by
  simp [kinPuts, Dvector.put, stepSlots]

theorem initPuts_log (vars : List α) (fg : Dvector α) :
    (initPuts vars fg).log = fg.log ++ stepSlots 0 := by
  simp [initPuts, Dvector.put, stepSlots]

theorem kinAll_log (tr : Trig α) (coeffs vars : List α) (n : Nat) :
    ∀ (lo : Nat) (fg : Dvector α),
      (kinAll tr coeffs vars lo n fg).log = fg.log ++ slotLog lo n := by
  induction n with
  | zero => intro lo fg; simp [kinAll, slotLog]
  | succ n ih => intro lo fg; rw [kinAll, ih, kinPuts_log, slotLog, List.append_assoc]

theorem fgFinal_log (tr : Trig α) (coeffs : List α) (fg : Dvector α) (vars : List α) :
    (fgFinal tr coeffs fg vars).log = fg.log ++ (List.replicate 74 0 ++ slotLog 0 N) := by
  have e : slotLog 0 N = stepSlots 0 ++ slotLog 1 (N - 1) := rfl
  rw [fgFinal, kinAll_log, initPuts_log, e]
  simp [Dvector.acc, List.append_assoc]

set_option maxRecDepth 100000 in
theorem slotLog_bound : ∀ j ∈ List.replicate 74 0 ++ slotLog 0 N, j ≤ 6 * N := by
  decide

theorem slotLog_count : ∀ j, j < 6 * N + 1 → 1 ≤ j →
    (List.replicate 74 0 ++ slotLog 0 N).count j = 1 := by
  decide

theorem fgFinal_read_some (tr : Trig α) (coeffs vars : List α) {fg : Dvector α}
    (hfg : fg.size = 1 + n_constraints) {j : Nat} (h2 : j ≤ 6 * N) :
    ∃ v, (fgFinal tr coeffs fg vars).read j = .ok v := by
  by_cases h0 : j = 0
  · subst h0; exact ⟨_, fgFinal_read_cost tr coeffs vars hfg⟩
  · obtain ⟨t, ht, hj⟩ := slot_cases (by omega) h2
    by_cases ht0 : t = 0
    · subst ht0
      obtain ⟨a0, a1, a2, a3, a4, a5⟩ := fgFinal_read_init tr coeffs vars hfg
      rcases hj with h | h | h | h | h | h <;> rw [h, Nat.add_zero]
      exacts [⟨_, a0⟩, ⟨_, a1⟩, ⟨_, a2⟩, ⟨_, a3⟩, ⟨_, a4⟩, ⟨_, a5⟩]
    · obtain ⟨a0, a1, a2, a3, a4, a5⟩ :=
        fgFinal_read_step tr coeffs vars hfg (show 1 ≤ t by omega) ht
      rcases hj with h | h | h | h | h | h <;> rw [h]
      exacts [⟨_, a0⟩, ⟨_, a1⟩, ⟨_, a2⟩, ⟨_, a3⟩, ⟨_, a4⟩, ⟨_, a5⟩]

/-- C18: on `vars` of length `n_vars`, `fg` of length `1 + 6N` and at least three
coefficients, `FG_eval` runs to its end without an index leaving its vector
(every read of `vars` and `coeffs` and every write to `fg` is checked); its
writes to `fg`, in program order, are 74 writes to `fg[0]` followed by the six
slots of step `t` for `t = 0, ..., N-1`; each is at an index at most `6N`;
every slot `fg[1] .. fg[6N]` is written exactly once and holds a value at the
end. -/
theorem C18_index_safety_and_coverage (tr : Trig α) (coeffs vars : List α) (fg : Dvector α)
    (hv : vars.length = 6 * N + 2 * (N - 1)) (hc : 3 ≤ coeffs.length)
    (hfg : fg.size = 1 + 6 * N) :
    ∃ fg' w, FG_eval tr coeffs fg vars = .ok fg'
      ∧ fg'.size = 1 + 6 * N
      ∧ fg'.log = fg.log ++ w
      ∧ w = List.replicate 74 0 ++ slotLog 0 N
      ∧ (∀ j ∈ w, j ≤ 6 * N)
      ∧ (∀ j, 1 ≤ j → j ≤ 6 * N → w.count j = 1)
      ∧ (∀ j, j ≤ 6 * N → ∃ v, fg'.read j = .ok v) := by
  refine ⟨fgFinal tr coeffs fg vars, _, FG_eval_ok hv hc hfg, ?_, fgFinal_log tr coeffs fg vars,
    rfl, slotLog_bound, fun j h1 h2 => slotLog_count j (by omega) h1,
    fun j h2 => fgFinal_read_some tr coeffs vars hfg h2⟩
  rw [fgFinal_size, hfg]

end Log

/-- Witness of C18: the zero decision vector and a fresh `fg`. -/
theorem C18_index_safety_and_coverage_witness :
    (List.replicate 78 (0 : ℝ)).length = 6 * N + 2 * (N - 1)
    ∧ 3 ≤ ([0, 0, 0] : List ℝ).length
    ∧ (Dvector.alloc 61 : Dvector ℝ).size = 1 + 6 * N
    ∧ ∃ fg', FG_eval ⟨Real.cos, Real.sin, Real.arctan⟩ [0, 0, 0] (Dvector.alloc 61)
          (List.replicate 78 (0 : ℝ)) = .ok fg'
        ∧ ∀ j, 1 ≤ j → j ≤ 6 * N → fg'.log.count j = 1 :=
  ⟨by rfl, by decide, by rfl, by
    obtain ⟨fg', w, h1, _, h3, _, _, h6, _⟩ :=
      C18_index_safety_and_coverage ⟨Real.cos, Real.sin, Real.arctan⟩ [0, 0, 0]
        (List.replicate 78 (0 : ℝ)) (Dvector.alloc 61) (by rfl) (by decide) (by rfl)
    refine ⟨fg', h1, fun j hj1 hj2 => ?_⟩
    rw [h3]
    simpa [Dvector.alloc] using h6 j hj1 hj2⟩

/-! ## The initial guess -/

section Guess

variable {α : Type} [LinearOrderedField α]

theorem mapM_read_ok {β : Type} (g : Nat → Except Fault β) (f : Nat → β) (l : List Nat)
    (h : ∀ i ∈ l, g i = .ok (f i)) : l.mapM g = .ok (l.map f) := by
  induction l with
  | nil => rfl
  | cons a l ih =>
    rw [List.mapM_cons, h a (List.mem_cons_self _ _),
      ih (fun i hi => h i (List.mem_cons_of_mem _ hi))]
    rfl

theorem entry_map_range (f : Nat → α) {n i : Nat} (h : i < n) :
    entry ((List.range n).map f) i = f i := by
  simp [entry, List.getD_eq_getElem?_getD, List.getElem?_range h]

theorem setupFinal_vars_read (state : List α) {i : Nat} (hi : i < n_vars) :
    (setupFinal state).vars.read i = .ok (initialGuess state i) := by
  simp only [setupFinal, initialGuess, n_vars, epsi_start, cte_start, v_start,
    psi_start, y_start, x_start, N, Nat.reduceAdd, Nat.reduceMul, Nat.reduceSub] at *
  simp (disch :=
      first | omega | (simp only [Dvector.size_put, fill_size, Dvector.size_alloc]; omega)) only
    [Dvector.read_put, fill_read]
  have h0 : (0 ≤ i ∧ i < 0 + 78) := by omega
  simp only [h0, and_self, if_true, eq_comm (a := i)]
  split_ifs <;> first | rfl | omega

theorem setupFinal_vars_size (state : List α) : (setupFinal state).vars.size = n_vars := by
  simp [setupFinal]

theorem setupFinal_vars_values (state : List α) :
    (setupFinal state).vars.values = .ok (guessFinal state) := by
  rw [Dvector.values, setupFinal_vars_size]
  exact mapM_read_ok _ _ _ fun i hi => setupFinal_vars_read state (List.mem_range.mp hi)

theorem guessFinal_length (state : List α) : (guessFinal state).length = n_vars := by
  simp [guessFinal]

/-- C15: for every state the initial decision vector built by `Solve` has length
`n_vars`, holds `x, y, psi, v, cte, epsi` at the indices `x_start, ..., epsi_start`
and `0` at every other index; it is built from the state alone, and it is the
first vector handed to the solver whatever the coefficients and the solver. -/
theorem C15_initial_guess (state : List α) (hs : 6 ≤ state.length) :
    ∃ p, Solve_setup state = .ok p
      ∧ p.vars.size = 6 * N + 2 * (N - 1)
      ∧ p.vars.read x_start = .ok (entry state 0)
      ∧ p.vars.read y_start = .ok (entry state 1)
      ∧ p.vars.read psi_start = .ok (entry state 2)
      ∧ p.vars.read v_start = .ok (entry state 3)
      ∧ p.vars.read cte_start = .ok (entry state 4)
      ∧ p.vars.read epsi_start = .ok (entry state 5)
      ∧ (∀ i, i < 6 * N + 2 * (N - 1) → i ≠ x_start → i ≠ y_start → i ≠ psi_start →
          i ≠ v_start → i ≠ cte_start → i ≠ epsi_start → p.vars.read i = .ok 0)
      ∧ (∀ i, i < 6 * N + 2 * (N - 1) → p.vars.read i = .ok (initialGuess state i))
      ∧ (∀ (tr : Trig α) (solve : Solver α) (coeffs : List α),
          Solve tr solve state coeffs
            = Solve_result (solve solver_options p.vars p.vars_lowerbound p.vars_upperbound
                p.constraints_lowerbound p.constraints_upperbound (FG_eval tr coeffs)).x) := by
  have h := fun i (hi : i < n_vars) => setupFinal_vars_read state hi
  refine ⟨setupFinal state, Solve_setup_ok hs, setupFinal_vars_size state, h _ (by decide),
    h _ (by decide), h _ (by decide), h _ (by decide), h _ (by decide), h _ (by decide),
    fun i hi n0 n1 n2 n3 n4 n5 => ?_, h, fun tr solve coeffs => Solve_eq tr solve coeffs hs⟩
  rw [h i hi, initialGuess, if_neg n0, if_neg n1, if_neg n2, if_neg n3, if_neg n4, if_neg n5]

/-- C13, as amended: for every state, the six `t = 0` entries of the constraint
vector that `FG_eval` produces at the initial guess built by `Solve` are the
measured state values `x, y, psi, v, cte, epsi` themselves, which are the lower
and upper bounds of these constraints: the six `t = 0` constraints hold at the
initial guess. -/
theorem C13_initial_residuals_are_state (tr : Trig α) (state coeffs : List α)
    (fg : Dvector α) (hs : 6 ≤ state.length) (hc : 3 ≤ coeffs.length)
    (hfg : fg.size = 1 + 6 * N) :
    ∃ p guess fg', Solve_setup state = .ok p ∧ p.vars.values = .ok guess
      ∧ FG_eval tr coeffs fg guess = .ok fg'
      ∧ fg'.read (1 + x_start) = .ok (entry state 0)
      ∧ fg'.read (1 + y_start) = .ok (entry state 1)
      ∧ fg'.read (1 + psi_start) = .ok (entry state 2)
      ∧ fg'.read (1 + v_start) = .ok (entry state 3)
      ∧ fg'.read (1 + cte_start) = .ok (entry state 4)
      ∧ fg'.read (1 + epsi_start) = .ok (entry state 5)
      ∧ constraintHolds p.constraints_lowerbound p.constraints_upperbound fg' x_start
      ∧ constraintHolds p.constraints_lowerbound p.constraints_upperbound fg' y_start
      ∧ constraintHolds p.constraints_lowerbound p.constraints_upperbound fg' psi_start
      ∧ constraintHolds p.constraints_lowerbound p.constraints_upperbound fg' v_start
      ∧ constraintHolds p.constraints_lowerbound p.constraints_upperbound fg' cte_start
      ∧ constraintHolds p.constraints_lowerbound p.constraints_upperbound fg' epsi_start := by
  obtain ⟨g0, g1, g2, g3, g4, g5⟩ := fgFinal_read_init tr coeffs (guessFinal state) hfg
  have e : ∀ i, i < n_vars → entry (guessFinal state) i = initialGuess state i :=
    fun i hi => entry_map_range _ hi
  rw [e _ (by decide)] at g0 g1 g2 g3 g4 g5
  have g0' : (fgFinal tr coeffs fg (guessFinal state)).read (1 + x_start)
      = .ok (entry state 0) := g0
  have g1' : (fgFinal tr coeffs fg (guessFinal state)).read (1 + y_start)
      = .ok (entry state 1) := g1
  have g2' : (fgFinal tr coeffs fg (guessFinal state)).read (1 + psi_start)
      = .ok (entry state 2) := g2
  have g3' : (fgFinal tr coeffs fg (guessFinal state)).read (1 + v_start)
      = .ok (entry state 3) := g3
  have g4' : (fgFinal tr coeffs fg (guessFinal state)).read (1 + cte_start)
      = .ok (entry state 4) := g4
  have g5' : (fgFinal tr coeffs fg (guessFinal state)).read (1 + epsi_start)
      = .ok (entry state 5) := g5
  have hb := fun i (hi : i < n_constraints) => setupFinal_constraint_read state hi
  refine ⟨setupFinal state, guessFinal state, fgFinal tr coeffs fg (guessFinal state),
    Solve_setup_ok hs, setupFinal_vars_values state,
    FG_eval_ok (guessFinal_length state) hc hfg, g0', g1', g2', g3', g4', g5',
    ?_, ?_, ?_, ?_, ?_, ?_⟩
  · exact (constraintHolds_pinned (hb x_start (by decide)).1 (hb x_start (by decide)).2 g0').mpr
      rfl
  · exact (constraintHolds_pinned (hb y_start (by decide)).1 (hb y_start (by decide)).2 g1').mpr
      rfl
  · exact (constraintHolds_pinned (hb psi_start (by decide)).1 (hb psi_start (by decide)).2
      g2').mpr rfl
  · exact (constraintHolds_pinned (hb v_start (by decide)).1 (hb v_start (by decide)).2 g3').mpr
      rfl
  · exact (constraintHolds_pinned (hb cte_start (by decide)).1 (hb cte_start (by decide)).2
      g4').mpr rfl
  · exact (constraintHolds_pinned (hb epsi_start (by decide)).1 (hb epsi_start (by decide)).2
      g5').mpr rfl

end Guess

/-! ## No configuration check -/

section Config

variable {α : Type} [LinearOrderedField α]

/-- C14, as amended: `Solve` makes no configuration check before the solver call.
For every coefficient vector, also one with fewer than three entries, it
builds the problem from the state alone, calls the solver with it and with
`FG_eval` over these coefficients, and goes on from the solver's reply; the
horizon is the constant `N = 10`, never below 3. -/
theorem C14_no_configuration_check (tr : Trig α) (solve : Solver α) (state coeffs : List α)
    (hs : 6 ≤ state.length) :
    ∃ p, Solve_setup state = .ok p
      ∧ Solve tr solve state coeffs
          = Solve_result (solve solver_options p.vars p.vars_lowerbound p.vars_upperbound
              p.constraints_lowerbound p.constraints_upperbound (FG_eval tr coeffs)).x
      ∧ N = 10 ∧ 3 ≤ N :=
  ⟨setupFinal state, Solve_setup_ok hs, Solve_eq tr solve coeffs hs, rfl, by decide⟩

end Config

/-- Witness of C14 as amended: the two coefficients `(0, 0)` and any solver
`solve`. -/
theorem C14_no_configuration_check_witness :
    6 ≤ ([0, 0, 0, 0, 0, 0] : List ℝ).length
    ∧ ∀ solve : Solver ℝ, ∃ p, Solve_setup ([0, 0, 0, 0, 0, 0] : List ℝ) = .ok p
        ∧ Solve ⟨Real.cos, Real.sin, Real.arctan⟩ solve [0, 0, 0, 0, 0, 0] [0, 0]
            = Solve_result (solve solver_options p.vars p.vars_lowerbound p.vars_upperbound
                p.constraints_lowerbound p.constraints_upperbound
                (FG_eval ⟨Real.cos, Real.sin, Real.arctan⟩ [0, 0])).x :=
  ⟨by decide, fun solve =>
    (C14_no_configuration_check ⟨Real.cos, Real.sin, Real.arctan⟩ solve
      [0, 0, 0, 0, 0, 0] [0, 0] (by decide)).imp fun _ h => ⟨h.1, h.2.1⟩⟩

/-- C14 fails as stated: with the two coefficients `(0, 0)` (a path of degree
below 2) `Solve` raises nothing before the solver call. It builds the problem
`p` from the state, and for every solver its outcome is what the extraction of
lines 261-271 makes of the solver's reply to `p` and to `FG_eval` over `(0, 0)`. -/
theorem C14_degree_one_reaches_solver :
    ([0, 0] : List ℝ).length < 3
    ∧ ∃ p, Solve_setup ([0, 0, 0, 0, 0, 0] : List ℝ) = .ok p
        ∧ ∀ solve : Solver ℝ,
            Solve ⟨Real.cos, Real.sin, Real.arctan⟩ solve [0, 0, 0, 0, 0, 0] [0, 0]
              = Solve_result (solve solver_options p.vars p.vars_lowerbound p.vars_upperbound
                  p.constraints_lowerbound p.constraints_upperbound
                  (FG_eval ⟨Real.cos, Real.sin, Real.arctan⟩ [0, 0])).x :=
  ⟨by decide, setupFinal _, Solve_setup_ok (by decide),
    fun solve => Solve_eq _ solve _ (by decide)⟩

/-- Witness of C15: the state `(1, 2, 3, 4, 5, 6)`. -/
theorem C15_initial_guess_witness :
    6 ≤ ([1, 2, 3, 4, 5, 6] : List ℝ).length
    ∧ ∃ p, Solve_setup ([1, 2, 3, 4, 5, 6] : List ℝ) = .ok p
        ∧ p.vars.size = 6 * N + 2 * (N - 1)
        ∧ p.vars.read psi_start = .ok (entry ([1, 2, 3, 4, 5, 6] : List ℝ) 2)
        ∧ p.vars.read 77 = .ok 0 :=
  ⟨by decide,
    (C15_initial_guess ([1, 2, 3, 4, 5, 6] : List ℝ) (by decide)).imp fun _ h =>
      ⟨h.1, h.2.1, h.2.2.2.2.1,
        h.2.2.2.2.2.2.2.2.1 77 (by decide) (by decide) (by decide) (by decide) (by decide)
          (by decide) (by decide)⟩⟩

/-- Witness of C13 as amended: the state `(1, 2, 3, 4, 5, 6)`. -/
theorem C13_initial_residuals_are_state_witness :
    6 ≤ ([1, 2, 3, 4, 5, 6] : List ℝ).length ∧ 3 ≤ ([0, 0, 0] : List ℝ).length
    ∧ (Dvector.alloc 61 : Dvector ℝ).size = 1 + 6 * N
    ∧ ∃ p guess fg', Solve_setup ([1, 2, 3, 4, 5, 6] : List ℝ) = .ok p
        ∧ p.vars.values = .ok guess
        ∧ FG_eval ⟨Real.cos, Real.sin, Real.arctan⟩ [0, 0, 0] (Dvector.alloc 61) guess = .ok fg'
        ∧ fg'.read (1 + x_start) = .ok (entry ([1, 2, 3, 4, 5, 6] : List ℝ) 0) :=
  ⟨by decide, by decide, by rfl,
    (C13_initial_residuals_are_state ⟨Real.cos, Real.sin, Real.arctan⟩ [1, 2, 3, 4, 5, 6]
      [0, 0, 0] (Dvector.alloc 61) (by decide) (by decide) (by rfl)).imp fun _ h =>
      h.imp fun _ h' => h'.imp fun _ h'' => ⟨h''.1, h''.2.1, h''.2.2.1, h''.2.2.2.1⟩⟩

/-- C13 fails as stated: for the state `(1, 2, 3, 4, 5, 6)` the entry
`fg[1 + x_start]` that `FG_eval` produces at the initial guess built by `Solve`
is `1`, the measured `x`, not `0`. -/
theorem C13_initial_residual_not_zero :
    ∃ p guess fg', Solve_setup ([1, 2, 3, 4, 5, 6] : List ℝ) = .ok p
      ∧ p.vars.values = .ok guess
      ∧ FG_eval ⟨Real.cos, Real.sin, Real.arctan⟩ [0, 0, 0] (Dvector.alloc 61) guess = .ok fg'
      ∧ fg'.read (1 + x_start) = .ok 1 ∧ fg'.read (1 + x_start) ≠ .ok 0 := by
  have hfg : (Dvector.alloc 61 : Dvector ℝ).size = 1 + n_constraints := rfl
  have g0 := (fgFinal_read_init ⟨Real.cos, Real.sin, Real.arctan⟩ [0, 0, 0]
    (guessFinal ([1, 2, 3, 4, 5, 6] : List ℝ)) hfg).1
  rw [guessFinal, entry_map_range _ (show x_start < n_vars by decide)] at g0
  have g0' : (fgFinal ⟨Real.cos, Real.sin, Real.arctan⟩ [0, 0, 0] (Dvector.alloc 61)
      (guessFinal ([1, 2, 3, 4, 5, 6] : List ℝ))).read (1 + x_start) = .ok 1 := g0
  refine ⟨_, _, _, Solve_setup_ok (by decide), setupFinal_vars_values _,
    FG_eval_ok (guessFinal_length _) (by decide) hfg, g0', ?_⟩
  rw [g0']
  intro h
  have h' := Except.ok.inj h
  norm_num at h'

/-! ## The straight path -/

section Straight
variable {α : Type} [LinearOrderedField α]

theorem straightVars_length (tr : Trig α) (x y psi : α) :
    (straightVars tr x y psi).length = n_vars := by
  simp [straightVars]

theorem straightVars_entries (tr : Trig α) (x y psi : α) {t : Nat} (ht : t < N) :
    entry (straightVars tr x y psi) (x_start + t) = x + (t : α) * (70 * tr.cos psi * 0.1)
    ∧ entry (straightVars tr x y psi) (y_start + t) = y + (t : α) * (70 * tr.sin psi * 0.1)
    ∧ entry (straightVars tr x y psi) (psi_start + t) = psi
    ∧ entry (straightVars tr x y psi) (v_start + t) = 70
    ∧ entry (straightVars tr x y psi) (cte_start + t) = 0
    ∧ entry (straightVars tr x y psi) (epsi_start + t) = 0 := by
  simp only [N] at ht
  unfold straightVars
  simp only [n_vars, epsi_start, cte_start, v_start, psi_start, y_start, x_start, N]
  refine ⟨?_, ?_, ?_, ?_, ?_, ?_⟩
  · rw [entry_map_range _ (by omega), if_pos (by omega)]
    simp
  · rw [entry_map_range _ (by omega), if_neg (by omega), if_pos (by omega)]
    simp
  · rw [entry_map_range _ (by omega), if_neg (by omega), if_neg (by omega), if_pos (by omega)]
  · rw [entry_map_range _ (by omega), if_neg (by omega), if_neg (by omega), if_neg (by omega),
      if_pos (by omega)]
  · rw [entry_map_range _ (by omega), if_neg (by omega), if_neg (by omega), if_neg (by omega),
      if_neg (by omega)]
  · rw [entry_map_range _ (by omega), if_neg (by omega), if_neg (by omega), if_neg (by omega),
      if_neg (by omega)]

theorem straightVars_actuators (tr : Trig α) (x y psi : α) {t : Nat} (ht : t < N - 1) :
    entry (straightVars tr x y psi) (delta_start + t) = 0
    ∧ entry (straightVars tr x y psi) (a_start + t) = 0 := by
  simp only [N] at ht
  unfold straightVars
  simp only [n_vars, a_start, delta_start, epsi_start, cte_start, v_start, psi_start, y_start,
    x_start, N]
  constructor <;>
  rw [entry_map_range _ (by omega), if_neg (by omega), if_neg (by omega), if_neg (by omega),
    if_neg (by omega)]

/-- The straight trajectory along the line `c0 + c1 x`: its state at `t` is the
kinematic update of its state at `t - 1`. -/
theorem straightVars_step (tr : Trig α) (c0 c1 x y psi : α) (hy : y = c0 + c1 * x)
    (hsin0 : tr.sin 0 = 0) (htan : tr.sin psi = c1 * tr.cos psi) (hatan : tr.atan c1 = psi)
    {t : Nat} (h1 : 1 ≤ t) (ht : t < N) :
    entry (straightVars tr x y psi) (x_start + t) = predX tr (straightVars tr x y psi) t
    ∧ entry (straightVars tr x y psi) (y_start + t) = predY tr (straightVars tr x y psi) t
    ∧ entry (straightVars tr x y psi) (psi_start + t)
        = predPsi (straightVars tr x y psi) t
            (entry (straightVars tr x y psi) (delta_start + (t - 1)))
    ∧ entry (straightVars tr x y psi) (v_start + t)
        = predV (straightVars tr x y psi) t
            (entry (straightVars tr x y psi) (a_start + (t - 1)))
    ∧ entry (straightVars tr x y psi) (cte_start + t)
        = predCte tr (straightVars tr x y psi) t
            (entry [c0, c1, 0] 0
              + entry [c0, c1, 0] 1 * entry (straightVars tr x y psi) (x_start + (t - 1))
              + entry [c0, c1, 0] 2 * entry (straightVars tr x y psi) (x_start + (t - 1)) ^ 2)
    ∧ entry (straightVars tr x y psi) (epsi_start + t)
        = predEpsi (straightVars tr x y psi) t
            (tr.atan (entry [c0, c1, 0] 1
              + 2 * entry [c0, c1, 0] 2 * entry (straightVars tr x y psi) (x_start + (t - 1))))
            (entry (straightVars tr x y psi) (delta_start + (t - 1))) := by
  obtain ⟨e0, e1, e2, e3, e4, e5⟩ := straightVars_entries tr x y psi ht
  obtain ⟨p0, p1, p2, p3, p4, p5⟩ :=
    straightVars_entries tr x y psi (show t - 1 < N by omega)
  have hd1 := (straightVars_actuators tr x y psi
    (show t - 1 < N - 1 by simp only [N] at *; omega)).1
  have ha1 := (straightVars_actuators tr x y psi
    (show t - 1 < N - 1 by simp only [N] at *; omega)).2
  have c0e : entry ([c0, c1, 0] : List α) 0 = c0 := rfl
  have c1e : entry ([c0, c1, 0] : List α) 1 = c1 := rfl
  have c2e : entry ([c0, c1, 0] : List α) 2 = 0 := rfl
  have hcast : ((t - 1 : Nat) : α) = (t : α) - 1 := by
    rw [Nat.cast_sub h1, Nat.cast_one]
  refine ⟨?_, ?_, ?_, ?_, ?_, ?_⟩
  · rw [e0, predX, p0, p3, p2, hcast]; ring
  · rw [e1, predY, p1, p3, p2, hcast]; ring
  · rw [e2, predPsi, p2, p3, hd1]; ring
  · rw [e3, predV, p3, ha1]; ring
  · rw [e4, predCte, p1, p3, p5, p0, c0e, c1e, c2e, hsin0, hcast, hy]
    have : c1 * (70 * tr.cos psi * 0.1) = 70 * tr.sin psi * 0.1 := by rw [htan]; ring
    linear_combination (-(t : α) + 1) * this
  · rw [e5, predEpsi, p2, p3, hd1, c1e, c2e]
    have : c1 + 2 * 0 * entry (straightVars tr x y psi) (x_start + (t - 1)) = c1 := by ring
    rw [this, hatan]; ring

end Straight

theorem real_sin_arctan (c : ℝ) : Real.sin (Real.arctan c) = c * Real.cos (Real.arctan c) := by
  have h := Real.tan_mul_cos (ne_of_gt (Real.cos_arctan_pos c))
  rw [Real.tan_arctan] at h
  exact h.symm

/-- Witness of C12: the vehicle that leaves the origin at speed 70 along the
line `y = x` (coefficients `(0, 1, 0)`, heading `atan 1`), without actuation:
`x_t = y_t = t * 7 * cos (atan 1)`. -/
theorem C12_exact_trajectory_residuals_zero_witness :
    entry (straightVars ⟨Real.cos, Real.sin, Real.arctan⟩ 0 0 (Real.arctan 1)) v_start = 70
    ∧ entry (straightVars ⟨Real.cos, Real.sin, Real.arctan⟩ 0 0 (Real.arctan 1)) (x_start + 1)
        = 0 + ((1 : Nat) : ℝ) * (70 * Real.cos (Real.arctan 1) * 0.1)
    ∧ ∃ fg', FG_eval ⟨Real.cos, Real.sin, Real.arctan⟩ [0, 1, 0] (Dvector.alloc 61)
          (straightVars ⟨Real.cos, Real.sin, Real.arctan⟩ 0 0 (Real.arctan 1)) = .ok fg'
        ∧ ∀ t, 1 ≤ t → t < N →
            fg'.read (1 + x_start + t) = .ok 0 ∧ fg'.read (1 + y_start + t) = .ok 0
            ∧ fg'.read (1 + psi_start + t) = .ok 0 ∧ fg'.read (1 + v_start + t) = .ok 0
            ∧ fg'.read (1 + cte_start + t) = .ok 0 ∧ fg'.read (1 + epsi_start + t) = .ok 0 :=
  ⟨(straightVars_entries _ 0 0 (Real.arctan 1) (show 0 < N by decide)).2.2.2.1,
    (straightVars_entries _ 0 0 (Real.arctan 1) (show 1 < N by decide)).1,
    C12_exact_trajectory_residuals_zero ⟨Real.cos, Real.sin, Real.arctan⟩ [0, 1, 0]
      (straightVars ⟨Real.cos, Real.sin, Real.arctan⟩ 0 0 (Real.arctan 1)) (Dvector.alloc 61)
      (straightVars_length _ 0 0 (Real.arctan 1)) (by decide) (by rfl)
      (fun _ ht => (straightVars_actuators _ 0 0 (Real.arctan 1) ht).1)
      (fun _ ht => (straightVars_actuators _ 0 0 (Real.arctan 1) ht).2)
      (fun _ ht => (straightVars_entries _ 0 0 (Real.arctan 1) ht).2.2.2.1.trans
        (straightVars_entries _ 0 0 (Real.arctan 1) (show 0 < N by decide)).2.2.2.1.symm)
      (fun _ h1 ht =>
        straightVars_step ⟨Real.cos, Real.sin, Real.arctan⟩ 0 1 0 0 (Real.arctan 1)
          (by norm_num) Real.sin_zero (real_sin_arctan 1) rfl h1 ht)⟩

end MPC
